import Mathlib

/-!
Verification of the serial NOR flash storage driver of the
Zynq7020 digital-signal-processing experimental platform
(file Zynq7020_Test1.sdk/Main/src/main.h, the embedded copy of
qspi_g128_flash.c).

The driver is embedded shallowly: machine integers are naturals with
explicit reductions modulo 2^32 where the C code can overflow, the QSPI
bus is modelled as the list of transactions the driver sends, and the
mutable hardware state (the LQSPI configuration register) is threaded
explicitly.
-/

namespace FlashDriver

/-! ### Command opcodes and protocol constants (from main.h lines 70-145) -/

def WRITE_CMD : Nat := 0x02
def READ_CMD : Nat := 0x03
def READ_STATUS_CMD : Nat := 0x05
def WRITE_ENABLE_CMD : Nat := 0x06
def FAST_READ_CMD : Nat := 0x0B
def DUAL_READ_CMD : Nat := 0x3B
def QUAD_READ_CMD : Nat := 0x6B
def BULK_ERASE_CMD : Nat := 0xC7
def SEC_ERASE_CMD : Nat := 0xD8
def BANK_REG_WR : Nat := 0x17
def EXTADD_REG_WR : Nat := 0xC5
def DIE_ERASE_CMD : Nat := 0xC4
def READ_FLAG_STATUS_CMD : Nat := 0x70

def DUMMY_SIZE : Nat := 1
def BULK_ERASE_SIZE : Nat := 1
def SEC_ERASE_SIZE : Nat := 4
def BANK_SEL_SIZE : Nat := 2
def DIE_ERASE_SIZE : Nat := 4
def OVERHEAD_SIZE : Nat := 4
def SIXTEENMB : Nat := 0x1000000
def BANKMASK : Nat := 0xF000000

/-- The modulus of the 32-bit unsigned arithmetic used throughout the C code. -/
def U32 : Nat := 0x100000000

/-! ### Manufacturer identification bytes (main.h lines 160-177) -/

def MICRON_ID_BYTE0 : Nat := 0x20
def MICRON_ID_BYTE2_128 : Nat := 0x18
def MICRON_ID_BYTE2_256 : Nat := 0x19
def MICRON_ID_BYTE2_512 : Nat := 0x20
def MICRON_ID_BYTE2_1G : Nat := 0x21
def SPANSION_ID_BYTE0 : Nat := 0x01
def WINBOND_ID_BYTE0 : Nat := 0xEF
def WINBOND_ID_BYTE2_128 : Nat := 0x18
def MACRONIX_ID_BYTE0 : Nat := 0xC2
def MACRONIX_ID_BYTE2_256 : Nat := 0x19
def MACRONIX_ID_BYTE2_512 : Nat := 0x1A
def MACRONIX_ID_BYTE2_1G : Nat := 0x1B

/-! ### Flash configuration table indices (main.h lines 183-225) -/

def SPANSION_INDEX_START : Nat := 0
def FLASH_CFG_TBL_SINGLE_128_SP : Nat := SPANSION_INDEX_START
def FLASH_CFG_TBL_STACKED_128_SP : Nat := SPANSION_INDEX_START + 1
def FLASH_CFG_TBL_PARALLEL_128_SP : Nat := SPANSION_INDEX_START + 2
def FLASH_CFG_TBL_SINGLE_256_SP : Nat := SPANSION_INDEX_START + 3
def FLASH_CFG_TBL_STACKED_256_SP : Nat := SPANSION_INDEX_START + 4
def FLASH_CFG_TBL_PARALLEL_256_SP : Nat := SPANSION_INDEX_START + 5
def FLASH_CFG_TBL_SINGLE_512_SP : Nat := SPANSION_INDEX_START + 6
def FLASH_CFG_TBL_STACKED_512_SP : Nat := SPANSION_INDEX_START + 7
def FLASH_CFG_TBL_PARALLEL_512_SP : Nat := SPANSION_INDEX_START + 8
def MICRON_INDEX_START : Nat := FLASH_CFG_TBL_PARALLEL_512_SP + 1
def FLASH_CFG_TBL_SINGLE_1GB_MC : Nat := MICRON_INDEX_START + 9
def FLASH_CFG_TBL_STACKED_1GB_MC : Nat := MICRON_INDEX_START + 10
def FLASH_CFG_TBL_PARALLEL_1GB_MC : Nat := MICRON_INDEX_START + 11
def WINBOND_INDEX_START : Nat := FLASH_CFG_TBL_PARALLEL_1GB_MC + 1
def FLASH_CFG_TBL_PARALLEL_128_WB : Nat := WINBOND_INDEX_START + 2
def MACRONIX_INDEX_START : Nat := FLASH_CFG_TBL_PARALLEL_128_WB + 1 - 3

/-! ### External Xilinx driver interface constants.

These come from the platform QSPI driver headers (xqspips.h and
xqspips_hw.h), which are outside this repository but fixed by the
Xilinx interface: the three connection-mode codes and the U_PAGE
(upper-page chip select) bit of the LQSPI configuration register. -/

def XQSPIPS_CONNECTION_MODE_SINGLE : Nat := 0
def XQSPIPS_CONNECTION_MODE_STACKED : Nat := 1
def XQSPIPS_CONNECTION_MODE_PARALLEL : Nat := 2
def XQSPIPS_LQSPI_CR_U_PAGE_MASK : Nat := 0x20000000

/-! ### The geometry table (main.h lines 267-347) -/

/-- One row of the flash configuration table (struct FlashInfo in main.h). -/
structure FlashInfo where
  SectSize : Nat
  NumSect : Nat
  PageSize : Nat
  NumPage : Nat
  FlashDeviceSize : Nat
  ManufacturerID : Nat
  DeviceIDMemSize : Nat
  SectMask : Nat
  NumDie : Nat
deriving Repr, DecidableEq

instance : Inhabited FlashInfo := ⟨⟨0, 0, 0, 0, 0, 0, 0, 0, 0⟩⟩

/-- The static catalog Flash_Config_Table, all 33 rows, transcribed from the
initializer in main.h. -/
def Flash_Config_Table : List FlashInfo := [
  ⟨0x10000, 0x100, 256, 0x10000, 0x1000000, SPANSION_ID_BYTE0, MICRON_ID_BYTE2_128, 0xFFFF0000, 1⟩,
  ⟨0x10000, 0x200, 256, 0x20000, 0x1000000, SPANSION_ID_BYTE0, MICRON_ID_BYTE2_128, 0xFFFF0000, 1⟩,
  ⟨0x20000, 0x100, 512, 0x10000, 0x1000000, SPANSION_ID_BYTE0, MICRON_ID_BYTE2_128, 0xFFFE0000, 1⟩,
  ⟨0x10000, 0x200, 256, 0x20000, 0x2000000, SPANSION_ID_BYTE0, MICRON_ID_BYTE2_256, 0xFFFF0000, 1⟩,
  ⟨0x10000, 0x400, 256, 0x40000, 0x2000000, SPANSION_ID_BYTE0, MICRON_ID_BYTE2_256, 0xFFFF0000, 1⟩,
  ⟨0x20000, 0x200, 512, 0x20000, 0x2000000, SPANSION_ID_BYTE0, MICRON_ID_BYTE2_256, 0xFFFE0000, 1⟩,
  ⟨0x40000, 0x100, 512, 0x20000, 0x4000000, SPANSION_ID_BYTE0, MICRON_ID_BYTE2_512, 0xFFFC0000, 1⟩,
  ⟨0x40000, 0x200, 512, 0x40000, 0x4000000, SPANSION_ID_BYTE0, MICRON_ID_BYTE2_512, 0xFFFC0000, 1⟩,
  ⟨0x80000, 0x100, 1024, 0x20000, 0x4000000, SPANSION_ID_BYTE0, MICRON_ID_BYTE2_512, 0xFFF80000, 1⟩,
  ⟨0x10000, 0x100, 256, 0x10000, 0x1000000, MICRON_ID_BYTE0, MICRON_ID_BYTE2_128, 0xFFFF0000, 1⟩,
  ⟨0x10000, 0x200, 256, 0x20000, 0x1000000, MICRON_ID_BYTE0, MICRON_ID_BYTE2_128, 0xFFFF0000, 1⟩,
  ⟨0x20000, 0x100, 512, 0x10000, 0x1000000, MICRON_ID_BYTE0, MICRON_ID_BYTE2_128, 0xFFFE0000, 1⟩,
  ⟨0x10000, 0x200, 256, 0x20000, 0x2000000, MICRON_ID_BYTE0, MICRON_ID_BYTE2_256, 0xFFFF0000, 1⟩,
  ⟨0x10000, 0x400, 256, 0x40000, 0x2000000, MICRON_ID_BYTE0, MICRON_ID_BYTE2_256, 0xFFFF0000, 1⟩,
  ⟨0x20000, 0x200, 512, 0x20000, 0x2000000, MICRON_ID_BYTE0, MICRON_ID_BYTE2_256, 0xFFFE0000, 1⟩,
  ⟨0x10000, 0x400, 256, 0x40000, 0x4000000, MICRON_ID_BYTE0, MICRON_ID_BYTE2_512, 0xFFFF0000, 2⟩,
  ⟨0x10000, 0x800, 256, 0x80000, 0x4000000, MICRON_ID_BYTE0, MICRON_ID_BYTE2_512, 0xFFFF0000, 2⟩,
  ⟨0x20000, 0x400, 512, 0x40000, 0x4000000, MICRON_ID_BYTE0, MICRON_ID_BYTE2_512, 0xFFFE0000, 2⟩,
  ⟨0x10000, 0x800, 256, 0x80000, 0x8000000, MICRON_ID_BYTE0, MICRON_ID_BYTE2_1G, 0xFFFF0000, 4⟩,
  ⟨0x10000, 0x1000, 256, 0x100000, 0x8000000, MICRON_ID_BYTE0, MICRON_ID_BYTE2_1G, 0xFFFF0000, 4⟩,
  ⟨0x20000, 0x800, 512, 0x80000, 0x8000000, MICRON_ID_BYTE0, MICRON_ID_BYTE2_1G, 0xFFFE0000, 4⟩,
  ⟨0x10000, 0x100, 256, 0x10000, 0x1000000, WINBOND_ID_BYTE0, WINBOND_ID_BYTE2_128, 0xFFFF0000, 1⟩,
  ⟨0x10000, 0x200, 256, 0x20000, 0x1000000, WINBOND_ID_BYTE0, WINBOND_ID_BYTE2_128, 0xFFFF0000, 1⟩,
  ⟨0x20000, 0x100, 512, 0x10000, 0x1000000, WINBOND_ID_BYTE0, WINBOND_ID_BYTE2_128, 0xFFFE0000, 1⟩,
  ⟨0x10000, 0x200, 256, 0x20000, 0x2000000, MACRONIX_ID_BYTE0, MACRONIX_ID_BYTE2_256, 0xFFFF0000, 1⟩,
  ⟨0x10000, 0x400, 256, 0x40000, 0x2000000, MACRONIX_ID_BYTE0, MACRONIX_ID_BYTE2_256, 0xFFFF0000, 1⟩,
  ⟨0x20000, 0x200, 512, 0x20000, 0x2000000, MACRONIX_ID_BYTE0, MACRONIX_ID_BYTE2_256, 0xFFFE0000, 1⟩,
  ⟨0x10000, 0x400, 256, 0x40000, 0x4000000, MACRONIX_ID_BYTE0, MACRONIX_ID_BYTE2_512, 0xFFFF0000, 1⟩,
  ⟨0x10000, 0x800, 256, 0x80000, 0x4000000, MACRONIX_ID_BYTE0, MACRONIX_ID_BYTE2_512, 0xFFFF0000, 1⟩,
  ⟨0x20000, 0x400, 512, 0x40000, 0x4000000, MACRONIX_ID_BYTE0, MACRONIX_ID_BYTE2_512, 0xFFFE0000, 1⟩,
  ⟨0x2000, 0x4000, 256, 0x80000, 0x8000000, MACRONIX_ID_BYTE0, MACRONIX_ID_BYTE2_1G, 0xFFFF0000, 1⟩,
  ⟨0x2000, 0x8000, 256, 0x100000, 0x8000000, MACRONIX_ID_BYTE0, MACRONIX_ID_BYTE2_1G, 0xFFFF0000, 1⟩,
  ⟨0x4000, 0x4000, 512, 0x80000, 0x8000000, MACRONIX_ID_BYTE0, MACRONIX_ID_BYTE2_1G, 0xFFFE0000, 1⟩]

/-- Indexing into Flash_Config_Table (the C array access by FCTIndex). -/
def FCT (i : Nat) : FlashInfo := Flash_Config_Table.getD i default

/-! ### Hardware state and the address translator GetRealAddr
(main.h lines 1294-1347) -/

/-- The mutable part of the QSPI peripheral visible to the driver: the
configured connection mode (read-only after initialization) and the LQSPI
configuration register holding, among others, the U_PAGE chip-select bit. -/
structure QspiState where
  connectionMode : Nat
  lqspiCr : Nat
deriving Repr, DecidableEq

/-- GetRealAddr: translates a logical address according to the connection
topology and, for stacked mode, flips the U_PAGE bit of the LQSPI
configuration register.  The C local variable RealAddr is left unassigned
when the connection mode is none of the three known modes; the parameter
junk stands for that indeterminate stack value. -/
def GetRealAddr (fct : FlashInfo) (st : QspiState) (Address : Nat) (junk : Nat) :
    Nat × QspiState :=
  if st.connectionMode = XQSPIPS_CONNECTION_MODE_SINGLE then
    (Address, st)
  else if st.connectionMode = XQSPIPS_CONNECTION_MODE_STACKED then
    if Address &&& fct.FlashDeviceSize ≠ 0 then
      (Address &&& (0xFFFFFFFF ^^^ fct.FlashDeviceSize),
        { st with lqspiCr := st.lqspiCr ||| XQSPIPS_LQSPI_CR_U_PAGE_MASK })
    else
      (Address,
        { st with lqspiCr := st.lqspiCr &&& (0xFFFFFFFF ^^^ XQSPIPS_LQSPI_CR_U_PAGE_MASK) })
  else if st.connectionMode = XQSPIPS_CONNECTION_MODE_PARALLEL then
    (Address / 2, st)
  else
    (junk, st)

/-! ### Bit-arithmetic helper lemmas -/

/-- Splitting off the low m bits of x by xor removes them. -/
theorem xor_mod_two_pow_self (x m : Nat) : x ^^^ x % 2 ^ m = 2 ^ m * (x / 2 ^ m) := by
  have hb : x % 2 ^ m < 2 ^ m := Nat.mod_lt _ (Nat.two_pow_pos m)
  have hx : x = 2 ^ m * (x / 2 ^ m) + x % 2 ^ m := (Nat.div_add_mod x (2 ^ m)).symm
  set q := x / 2 ^ m with hq
  set r := x % 2 ^ m with hr
  have hgoal : (2 ^ m * q + r) ^^^ r = 2 ^ m * q := by
    apply Nat.eq_of_testBit_eq
    intro j
    rw [Nat.testBit_xor, Nat.testBit_mul_pow_two_add _ hb j, Nat.testBit_mul_pow_two]
    by_cases hj : j < m
    · simp [hj, Nat.not_le_of_lt hj]
    · have hle : m ≤ j := Nat.le_of_not_lt hj
      have hxm : r.testBit j = false :=
        Nat.testBit_lt_two_pow (lt_of_lt_of_le hb (Nat.pow_le_pow_right (by norm_num) hle))
      simp [hj, hle, hxm]
  calc x ^^^ r = (2 ^ m * q + r) ^^^ r := by rw [← hx]
    _ = 2 ^ m * q := hgoal

/-- Masking x with the window of bits m..n-1 extracts those bits in place. -/
theorem and_bit_window {m n : Nat} (h : m ≤ n) (x : Nat) :
    x &&& (2 ^ n - 1 ^^^ (2 ^ m - 1)) = 2 ^ m * (x / 2 ^ m % 2 ^ (n - m)) := by
  rw [Nat.and_xor_distrib_left, Nat.and_pow_two_sub_one_eq_mod, Nat.and_pow_two_sub_one_eq_mod]
  have h1 : x % 2 ^ m = x % 2 ^ n % 2 ^ m :=
    (Nat.mod_mod_of_dvd _ (pow_dvd_pow 2 h)).symm
  rw [h1, xor_mod_two_pow_self (x % 2 ^ n) m]
  congr 1
  have h2 : (2 : Nat) ^ n = 2 ^ m * 2 ^ (n - m) := by
    rw [← pow_add]
    congr 1
    omega
  rw [h2, Nat.mod_mul_right_div_self]

/-- A number with bit k set decomposes with that bit explicit. -/
theorem decomp_of_testBit {a k : Nat} (h : a.testBit k = true) :
    a = 2 ^ (k + 1) * (a / 2 ^ (k + 1)) + 2 ^ k + a % 2 ^ k := by
  have h1 : a / 2 ^ k % 2 = 1 := by
    have := Nat.testBit_to_div_mod (x := a) (i := k)
    rw [h] at this
    exact of_decide_eq_true this.symm
  have h2 : 2 ^ (k + 1) = 2 ^ k * 2 := by rw [pow_succ]
  have h3 : a / 2 ^ (k + 1) = a / 2 ^ k / 2 := by
    rw [h2, Nat.div_div_eq_div_mul]
  have h4 : a / 2 ^ k = 2 * (a / 2 ^ k / 2) + a / 2 ^ k % 2 := (Nat.div_add_mod _ 2).symm
  have h5 : a = 2 ^ k * (a / 2 ^ k) + a % 2 ^ k := (Nat.div_add_mod a (2 ^ k)).symm
  have h6 : a / 2 ^ k = 2 * (a / 2 ^ (k + 1)) + 1 := by rw [h3]; omega
  calc a = 2 ^ k * (a / 2 ^ k) + a % 2 ^ k := h5
    _ = 2 ^ k * (2 * (a / 2 ^ (k + 1)) + 1) + a % 2 ^ k := by rw [← h6]
    _ = 2 ^ (k + 1) * (a / 2 ^ (k + 1)) + 2 ^ k + a % 2 ^ k := by
        rw [h2]; ring

/-- Xor with a set bit clears it, i.e. subtracts its value. -/
theorem xor_two_pow_of_testBit {a k : Nat} (h : a.testBit k = true) :
    a ^^^ 2 ^ k = a - 2 ^ k := by
  have hd := decomp_of_testBit h
  set q := a / 2 ^ (k + 1) with hq
  set s := a % 2 ^ k with hs
  have hslt : s < 2 ^ k := Nat.mod_lt _ (Nat.two_pow_pos k)
  have hb1 : 2 ^ k + s < 2 ^ (k + 1) := by
    have : (2 : Nat) ^ (k + 1) = 2 ^ k + 2 ^ k := by rw [pow_succ]; ring
    omega
  have hgoal : (2 ^ (k + 1) * q + (2 ^ k + s)) ^^^ 2 ^ k = 2 ^ (k + 1) * q + s := by
    apply Nat.eq_of_testBit_eq
    intro j
    have hsb : s < 2 ^ (k + 1) := lt_trans hslt (by
      have : (2 : Nat) ^ (k + 1) = 2 ^ k + 2 ^ k := by rw [pow_succ]; ring
      omega)
    rw [Nat.testBit_xor, Nat.testBit_mul_pow_two_add _ hb1 j,
      Nat.testBit_mul_pow_two_add _ hsb j]
    by_cases hj : j < k + 1
    · by_cases hjk : j = k
      · subst hjk
        have hsk : s.testBit j = false := Nat.testBit_lt_two_pow hslt
        have htk : (2 ^ j + s).testBit j = !s.testBit j := Nat.testBit_two_pow_add_eq s j
        simp [hj, htk, hsk, Nat.testBit_two_pow_self]
      · have hjlt : j < k := by omega
        have h2 : (2 ^ k + s).testBit j = s.testBit j := by
          have := Nat.testBit_mul_pow_two_add (a := 1) (b := s) (i := k) hslt j
          simpa [hjlt, Nat.mul_one] using this
        have h3 : (2 ^ k).testBit j = false := Nat.testBit_two_pow_of_ne (by omega)
        simp [hj, h2, h3]
    · have h3 : (2 ^ k).testBit j = false := Nat.testBit_two_pow_of_ne (by omega)
      simp [hj, h3]
  calc a ^^^ 2 ^ k = (2 ^ (k + 1) * q + (2 ^ k + s)) ^^^ 2 ^ k := by rw [← Nat.add_assoc, ← hd]
    _ = 2 ^ (k + 1) * q + s := hgoal
    _ = a - 2 ^ k := by omega

/-- Clearing a set bit of an n-bit number by masking with the complement
subtracts the bit value. -/
theorem and_comp_two_pow_of_set {n k a : Nat} (ha : a < 2 ^ n)
    (hset : a &&& 2 ^ k ≠ 0) :
    a &&& (2 ^ n - 1 ^^^ 2 ^ k) = a - 2 ^ k := by
  have htb : a.testBit k = true := by
    by_contra hbit
    have hb : a.testBit k = false := by
      cases hx : a.testBit k
      · rfl
      · exact absurd hx hbit
    rw [Nat.and_two_pow, hb] at hset
    simp at hset
  have h1 : a &&& (2 ^ n - 1 ^^^ 2 ^ k) = (a &&& (2 ^ n - 1)) ^^^ (a &&& 2 ^ k) :=
    Nat.and_xor_distrib_left
  rw [h1, Nat.and_pow_two_sub_one_eq_mod, Nat.mod_eq_of_lt ha, Nat.and_two_pow, htb]
  simpa using xor_two_pow_of_testBit htb

/-- Masking an unset bit's complement leaves an n-bit number unchanged. -/
theorem and_comp_two_pow_of_clear {n k a : Nat} (ha : a < 2 ^ n)
    (hclr : a &&& 2 ^ k = 0) :
    a &&& (2 ^ n - 1 ^^^ 2 ^ k) = a := by
  have h1 : a &&& (2 ^ n - 1 ^^^ 2 ^ k) = (a &&& (2 ^ n - 1)) ^^^ (a &&& 2 ^ k) :=
    Nat.and_xor_distrib_left
  rw [h1, hclr, Nat.and_pow_two_sub_one_eq_mod, Nat.mod_eq_of_lt ha, Nat.xor_zero]

/-- The test of a power-of-two bit by masking. -/
theorem and_two_pow_ne_zero_iff (a k : Nat) : a &&& 2 ^ k ≠ 0 ↔ a.testBit k = true := by
  rw [Nat.and_two_pow]
  cases h : a.testBit k <;> simp [h]

/-! ### Bus transactions

A transaction records the meaningful bytes the driver places in the send
buffer and the total transfer length handed to XQspiPs_PolledTransfer. -/

structure Txn where
  send : List Nat
  size : Nat
deriving Repr, DecidableEq

def writeEnableTxn : Txn := ⟨[WRITE_ENABLE_CMD], 1⟩
def readStatusTxn : Txn := ⟨[READ_STATUS_CMD, 0], 2⟩
def flagStatusTxn : Txn := ⟨[READ_FLAG_STATUS_CMD, 0], 2⟩

/-- SendBankSelect (main.h lines 1101-1137): Micron needs a preceding write
enable and uses the extended-address register; Spansion writes the bank
register directly; for any other manufacturer nothing is sent. -/
def SendBankSelect (FlashMake : Nat) (BankSel : Nat) : List Txn :=
  (if FlashMake = MICRON_ID_BYTE0 then
    [writeEnableTxn, ⟨[EXTADD_REG_WR, BankSel % 256], BANK_SEL_SIZE⟩]
   else []) ++
  (if FlashMake = SPANSION_ID_BYTE0 then
    [⟨[BANK_REG_WR, BankSel % 256], BANK_SEL_SIZE⟩]
   else [])

/-- The wait-until-ready sequence shared by FlashWrite and the sector loop of
FlashErase: one flag-status read for multi-die Micron parts, then status
polls until the write-in-progress bit clears (busyPolls busy answers before
the ready one), then one more flag-status read for multi-die Micron. -/
def waitReadyTxns (fct : FlashInfo) (FlashMake : Nat) (busyPolls : Nat) : List Txn :=
  (if 1 < fct.NumDie ∧ FlashMake = MICRON_ID_BYTE0 then [flagStatusTxn] else [])
    ++ List.replicate (busyPolls + 1) readStatusTxn
    ++ (if 1 < fct.NumDie ∧ FlashMake = MICRON_ID_BYTE0 then [flagStatusTxn] else [])

/-- FlashWrite (main.h lines 526-611): translate the address, bank-select if
the device exceeds 16 MB, write-enable, transmit command + 3 address bytes +
payload, then the wait-until-ready sequence.  The payload function gives the
caller's bytes at offsets DATA_OFFSET.. of the write buffer. -/
def FlashWrite (fct : FlashInfo) (FlashMake : Nat) (st : QspiState)
    (Address ByteCount Command : Nat) (payload : Nat → Nat)
    (busyPolls junk : Nat) : List Txn × QspiState :=
  let res := GetRealAddr fct st Address junk
  let RealAddr := res.1
  let bankTxns :=
    if SIXTEENMB < fct.FlashDeviceSize then SendBankSelect FlashMake (RealAddr / SIXTEENMB)
    else []
  let writeTxn : Txn :=
    ⟨Command :: (RealAddr &&& 0xFF0000) >>> 16 :: (RealAddr &&& 0xFF00) >>> 8 ::
        (RealAddr &&& 0xFF) :: (List.range ByteCount).map payload,
      (ByteCount + OVERHEAD_SIZE) % U32⟩
  (bankTxns ++ [writeEnableTxn] ++ [writeTxn] ++ waitReadyTxns fct FlashMake busyPolls, res.2)

/-- BulkErase (main.h lines 1152-1197). -/
def BulkErase (busyPolls : Nat) : List Txn :=
  [writeEnableTxn, ⟨[BULK_ERASE_CMD], BULK_ERASE_SIZE⟩]
    ++ List.replicate (busyPolls + 1) readStatusTxn

/-- DieErase (main.h lines 1213-1277): per die, bank-select to the lower bank
of the die, write-enable, die-erase at address zero, then poll the flag
status register until the erase-complete bit sets. -/
def DieErase (fct : FlashInfo) (FlashMake : Nat) (busyPolls : Nat) : List Txn :=
  (List.range fct.NumDie).flatMap fun DieCnt =>
    SendBankSelect FlashMake (DieCnt * 2)
      ++ [writeEnableTxn, ⟨[DIE_ERASE_CMD, 0, 0, 0], DIE_ERASE_SIZE⟩]
      ++ List.replicate (busyPolls + 1) flagStatusTxn

/-- The boundary-overlap test of FlashErase (main.h lines 730-734), evaluated
with NumSect already set to ByteCount / SectSize + 1. -/
def eraseSectorOverlap (fct : FlashInfo) (Address ByteCount : Nat) : Bool :=
  ((Address + ByteCount) % U32 &&& fct.SectMask)
    == ((Address + (ByteCount / fct.SectSize + 1) * fct.SectSize) % U32 &&& fct.SectMask)

/-- The number of sector-erase iterations FlashErase performs for a partial
erase (main.h lines 722-734). -/
def eraseNumSect (fct : FlashInfo) (Address ByteCount : Nat) : Nat :=
  if eraseSectorOverlap fct Address ByteCount then ByteCount / fct.SectSize + 1 + 1
  else ByteCount / fct.SectSize + 1

/-- The per-sector loop of FlashErase (main.h lines 736-832), recursing on the
remaining sector count and threading the bank-tracking state (BankInitFlag
and BankSel) and the hardware state through GetRealAddr. -/
def FlashEraseLoop (fct : FlashInfo) (FlashMake busyPolls junk : Nat) :
    Nat → QspiState → Nat → Bool → Nat → List Txn × QspiState
  | 0, st, _, _, _ => ([], st)
  | n + 1, st, Address, bankInit, bankSel =>
    let res := GetRealAddr fct st Address junk
    let RealAddr := res.1
    let doInit := bankInit = true ∧ SIXTEENMB < fct.FlashDeviceSize
    let txns1 := if doInit then SendBankSelect FlashMake (RealAddr / SIXTEENMB) else []
    let bankInit1 := if doInit then false else bankInit
    let bank1 := if doInit then RealAddr / SIXTEENMB else bankSel
    let doNew := bank1 ≠ RealAddr / SIXTEENMB ∧ SIXTEENMB < fct.FlashDeviceSize
    let txns2 := if doNew then SendBankSelect FlashMake (RealAddr / SIXTEENMB) else []
    let bank2 := if doNew then RealAddr / SIXTEENMB else bank1
    let secTxn : Txn :=
      ⟨[SEC_ERASE_CMD, (RealAddr >>> 16) % 256, (RealAddr >>> 8) % 256, RealAddr &&& 0xFF],
        SEC_ERASE_SIZE⟩
    let rest := FlashEraseLoop fct FlashMake busyPolls junk n res.2
        ((Address + fct.SectSize) % U32) bankInit1 bank2
    (txns1 ++ txns2 ++ [writeEnableTxn, secTxn]
        ++ waitReadyTxns fct FlashMake busyPolls ++ rest.1, rest.2)

/-- FlashErase (main.h lines 630-833): a full-device byte count takes the
bulk/die erase path (with explicit lower-then-upper chip-select switching in
stacked mode); anything else erases sector by sector. -/
def FlashErase (fct : FlashInfo) (FlashMake : Nat) (st : QspiState)
    (Address ByteCount : Nat) (busyPolls junk : Nat) : List Txn × QspiState :=
  if ByteCount = (fct.NumSect * fct.SectSize) % U32 then
    let st1 :=
      if st.connectionMode = XQSPIPS_CONNECTION_MODE_STACKED then
        { st with lqspiCr := st.lqspiCr &&& (0xFFFFFFFF ^^^ XQSPIPS_LQSPI_CR_U_PAGE_MASK) }
      else st
    let txnsA :=
      (if fct.NumDie = 1 then BulkErase busyPolls else [])
        ++ (if 1 < fct.NumDie then DieErase fct FlashMake busyPolls else [])
    if st.connectionMode = XQSPIPS_CONNECTION_MODE_STACKED then
      (txnsA ++ txnsA, { st1 with lqspiCr := st1.lqspiCr ||| XQSPIPS_LQSPI_CR_U_PAGE_MASK })
    else
      (txnsA, st1)
  else
    FlashEraseLoop fct FlashMake busyPolls junk (eraseNumSect fct Address ByteCount)
      st Address true 0

/-- Whether a read command carries the extra dummy byte (fast, dual, quad). -/
def isDummyByteCmd (Command : Nat) : Bool :=
  Command == FAST_READ_CMD || Command == DUAL_READ_CMD || Command == QUAD_READ_CMD

/-- The chunking loop of FlashRead (main.h lines 1010-1085), recursing on a
fuel bound (the loop body always shrinks the remaining count by the payload
just read, so ByteCount is enough fuel on the driver's address space).  The
loop guard reflects the signed comparison of the C code: a remaining count
that is zero or wrapped past the sign bit stops the loop. -/
def FlashReadLoop (fct : FlashInfo) (FlashMake Command junk : Nat) :
    Nat → QspiState → Nat → Nat → List Txn × QspiState
  | 0, st, _, _ => ([], st)
  | fuel + 1, st, Address, ByteCount =>
    if ByteCount = 0 ∨ 2 ^ 31 ≤ ByteCount then ([], st)
    else
      let res := GetRealAddr fct st Address junk
      let RealAddr := res.1
      let bankTxns :=
        if SIXTEENMB < fct.FlashDeviceSize then SendBankSelect FlashMake (RealAddr / SIXTEENMB)
        else []
      let RealByteCnt :=
        if Address &&& BANKMASK ≠ (Address + ByteCount) % U32 &&& BANKMASK then
          ((Address &&& BANKMASK) + SIXTEENMB + U32 - Address % U32) % U32
        else ByteCount
      let RealByteCnt2 :=
        if isDummyByteCmd Command then (RealByteCnt + DUMMY_SIZE) % U32 else RealByteCnt
      let readTxn : Txn :=
        ⟨[Command, (RealAddr &&& 0xFF0000) >>> 16, (RealAddr &&& 0xFF00) >>> 8,
            RealAddr &&& 0xFF],
          (RealByteCnt2 + OVERHEAD_SIZE) % U32⟩
      let nextByteCount :=
        if isDummyByteCmd Command then
          (ByteCount + U32 - (RealByteCnt2 + U32 - DUMMY_SIZE) % U32) % U32
        else (ByteCount + U32 - RealByteCnt2) % U32
      let rest := FlashReadLoop fct FlashMake Command junk fuel res.2
          ((Address &&& BANKMASK) + SIXTEENMB) nextByteCount
      (bankTxns ++ [readTxn] ++ rest.1, rest.2)

/-- FlashRead (main.h lines 996-1086). -/
def FlashRead (fct : FlashInfo) (FlashMake : Nat) (st : QspiState)
    (Address ByteCount Command junk : Nat) : List Txn × QspiState :=
  FlashReadLoop fct FlashMake Command junk ByteCount st Address ByteCount

/-- The chunk decomposition performed by the FlashRead loop: the logical
address and payload size of each iteration, with the same guard and
arithmetic as the loop itself (the net decrement of the remaining count is
the payload size whether or not the command has a dummy byte). -/
def readChunkList : Nat → Nat → Nat → List (Nat × Nat)
  | 0, _, _ => []
  | fuel + 1, Address, ByteCount =>
    if ByteCount = 0 ∨ 2 ^ 31 ≤ ByteCount then []
    else
      let r :=
        if Address &&& BANKMASK ≠ (Address + ByteCount) % U32 &&& BANKMASK then
          ((Address &&& BANKMASK) + SIXTEENMB + U32 - Address % U32) % U32
        else ByteCount
      (Address, r) :: readChunkList fuel ((Address &&& BANKMASK) + SIXTEENMB)
        ((ByteCount + U32 - r % U32) % U32)

/-! ### Identification (FlashReadID, main.h lines 854-975) -/

def XST_SUCCESS : Nat := 0
def XST_FAILURE : Nat := 1

/-- The driver's identification state: the FlashMake and FCTIndex globals
plus the returned status. -/
structure IdResult where
  FlashMake : Nat
  FCTIndex : Nat
  status : Nat
deriving Repr, DecidableEq

/-- The connection-mode switch shared by the four size blocks of FlashReadID:
unknown modes fall to the default case, which assigns index 0. -/
def modeSwitch (mode single parallel stacked : Nat) : Nat :=
  if mode = XQSPIPS_CONNECTION_MODE_SINGLE then single
  else if mode = XQSPIPS_CONNECTION_MODE_PARALLEL then parallel
  else if mode = XQSPIPS_CONNECTION_MODE_STACKED then stacked
  else 0

/-- FlashReadID: reads the 3 ID bytes (b1 = manufacturer, b3 = size code),
updates the FlashMake global when the manufacturer byte is recognized, and
then runs the four sequential size-code blocks, each assigning FCTIndex when
its manufacturer/size condition holds.  The C local StartIndex is left
uninitialized when no manufacturer matches; startJunk stands for that
indeterminate value.  A transport failure returns XST_FAILURE before any
global is touched. -/
def FlashReadID (mode : Nat) (FlashMake0 FCTIndex0 : Nat) (b1 b3 : Nat)
    (transferOk : Bool) (startJunk : Nat) : IdResult :=
  if transferOk = false then ⟨FlashMake0, FCTIndex0, XST_FAILURE⟩
  else
    let ms :=
      if b1 = MICRON_ID_BYTE0 then (MICRON_ID_BYTE0, MICRON_INDEX_START)
      else if b1 = SPANSION_ID_BYTE0 then (SPANSION_ID_BYTE0, SPANSION_INDEX_START)
      else if b1 = WINBOND_ID_BYTE0 then (WINBOND_ID_BYTE0, WINBOND_INDEX_START)
      else if b1 = MACRONIX_ID_BYTE0 then (MACRONIX_ID_BYTE0, MACRONIX_INDEX_START)
      else (FlashMake0, startJunk)
    let FlashMake := ms.1
    let StartIndex := ms.2
    let idx1 :=
      if (FlashMake = MICRON_ID_BYTE0 ∨ FlashMake = SPANSION_ID_BYTE0 ∨
          FlashMake = WINBOND_ID_BYTE0) ∧ b3 = MICRON_ID_BYTE2_128 then
        modeSwitch mode (FLASH_CFG_TBL_SINGLE_128_SP + StartIndex)
          (FLASH_CFG_TBL_PARALLEL_128_SP + StartIndex)
          (FLASH_CFG_TBL_STACKED_128_SP + StartIndex)
      else FCTIndex0
    let idx2 :=
      if (FlashMake = MICRON_ID_BYTE0 ∨ FlashMake = SPANSION_ID_BYTE0 ∨
          FlashMake = MACRONIX_ID_BYTE0) ∧ b3 = MICRON_ID_BYTE2_256 then
        modeSwitch mode (FLASH_CFG_TBL_SINGLE_256_SP + StartIndex)
          (FLASH_CFG_TBL_PARALLEL_256_SP + StartIndex)
          (FLASH_CFG_TBL_STACKED_256_SP + StartIndex)
      else idx1
    let idx3 :=
      if ((FlashMake = MICRON_ID_BYTE0 ∨ FlashMake = SPANSION_ID_BYTE0) ∧
          b3 = MICRON_ID_BYTE2_512) ∨
         (FlashMake = MACRONIX_ID_BYTE0 ∧ b3 = MACRONIX_ID_BYTE2_512) then
        modeSwitch mode (FLASH_CFG_TBL_SINGLE_512_SP + StartIndex)
          (FLASH_CFG_TBL_PARALLEL_512_SP + StartIndex)
          (FLASH_CFG_TBL_STACKED_512_SP + StartIndex)
      else idx2
    let idx4 :=
      if (FlashMake = MICRON_ID_BYTE0 ∧ b3 = MICRON_ID_BYTE2_1G) ∨
         (FlashMake = MACRONIX_ID_BYTE0 ∧ b3 = MACRONIX_ID_BYTE2_1G) then
        modeSwitch mode FLASH_CFG_TBL_SINGLE_1GB_MC
          FLASH_CFG_TBL_PARALLEL_1GB_MC FLASH_CFG_TBL_STACKED_1GB_MC
      else idx3
    ⟨FlashMake, idx4, XST_SUCCESS⟩

/-! ### The update orchestrator (update_flash, main.h lines 450-504) -/

/-- The flash operations update_flash issues, at the call level. -/
inductive FlashOp where
  | erase (Address ByteCount : Nat)
  | write (Address ByteCount Command : Nat)
  | read (Address ByteCount Command : Nat)
deriving Repr, DecidableEq

def BIN_START_ADDRESS : Nat := 0

/-- The memcpy of update_flash: the source is copied into the write buffer at
offset DATA_OFFSET = 4 (the protocol header size). -/
def update_flash_copy (buffer writeBuffer : Nat → Nat) (length : Nat) : Nat → Nat :=
  fun k => if 4 ≤ k ∧ k < 4 + length then buffer (k - 4) else writeBuffer k

/-- The sequence of driver calls update_flash makes: one erase of the image
region, then length / PageSize + 1 page programs at consecutive page-aligned
addresses, then one quad-read of the region for verification. -/
def update_flash_ops (fct : FlashInfo) (length : Nat) : List FlashOp :=
  FlashOp.erase BIN_START_ADDRESS length ::
    ((List.range (length / fct.PageSize + 1)).map fun Page =>
      FlashOp.write ((Page * fct.PageSize + BIN_START_ADDRESS) % U32) fct.PageSize WRITE_CMD)
    ++ [FlashOp.read BIN_START_ADDRESS length QUAD_READ_CMD]

/-! ### Observations on traces and the catalog, used to state the claims -/

/-- Whether the manufacturer byte is one the identification code recognizes. -/
def manufacturerKnown (b1 : Nat) : Bool :=
  b1 == MICRON_ID_BYTE0 || b1 == SPANSION_ID_BYTE0 || b1 == WINBOND_ID_BYTE0 ||
    b1 == MACRONIX_ID_BYTE0

/-- Whether some row of the geometry catalog matches the manufacturer byte
and size-code byte of an identification response. -/
def catalogHasEntry (b1 b3 : Nat) : Bool :=
  Flash_Config_Table.any fun row => row.ManufacturerID == b1 && row.DeviceIDMemSize == b3

/-- The number of sector-erase transactions in a trace. -/
def countSecErase (ts : List Txn) : Nat :=
  ts.countP fun t => t.send.head? == some SEC_ERASE_CMD

/-- The bank value of a bank-select frame (the extended-address-register or
bank-register write), if the transaction is one. -/
def bankSelByte (t : Txn) : Option Nat :=
  match t.send with
  | c :: b :: _ => if c = EXTADD_REG_WR ∨ c = BANK_REG_WR then some b else none
  | _ => none

/-- The bank values of the bank-select frames of a trace, in order. -/
def banksOf (ts : List Txn) : List Nat := ts.filterMap bankSelByte

/-- Whether a transaction is a data read/write frame (command plus 3-byte
address header). -/
def isDataTxn (t : Txn) : Bool := t.send.length == 4

/-- Whether an operation of the update orchestrator is a page program. -/
def isWriteOp : FlashOp → Bool
  | .write _ _ _ => true
  | _ => false

/-! ### Helper lemmas about the U_PAGE bit -/

theorem or_upage_bit_set (x : Nat) :
    (x ||| XQSPIPS_LQSPI_CR_U_PAGE_MASK) &&& XQSPIPS_LQSPI_CR_U_PAGE_MASK =
      XQSPIPS_LQSPI_CR_U_PAGE_MASK := by
  have h : XQSPIPS_LQSPI_CR_U_PAGE_MASK = 2 ^ 29 := by norm_num [XQSPIPS_LQSPI_CR_U_PAGE_MASK]
  rw [h, Nat.and_two_pow, Nat.testBit_or, Nat.testBit_two_pow_self]
  simp

theorem and_comp_upage_bit_clear (x : Nat) :
    (x &&& (0xFFFFFFFF ^^^ XQSPIPS_LQSPI_CR_U_PAGE_MASK)) &&& XQSPIPS_LQSPI_CR_U_PAGE_MASK = 0 := by
  rw [Nat.and_assoc]
  have h : (0xFFFFFFFF ^^^ XQSPIPS_LQSPI_CR_U_PAGE_MASK) &&& XQSPIPS_LQSPI_CR_U_PAGE_MASK = 0 := by
    decide
  rw [h, Nat.and_zero]

/-! ### Claim theorems -/

/-- C1: address translation by GetRealAddr is the identity in Single
topology, halves the address in Parallel topology, and in Stacked topology
subtracts the per-chip device size exactly when the address has the
device-size bit set, with the U_PAGE chip-select bit of the LQSPI
configuration register set (upper chip) in that branch and cleared (lower
chip) otherwise. -/
theorem getRealAddr_translation (fct : FlashInfo) (st : QspiState) (a junk k : Nat)
    (hk : k < 32) (hD : fct.FlashDeviceSize = 2 ^ k) (ha : a < 2 ^ 32) :
    (st.connectionMode = XQSPIPS_CONNECTION_MODE_SINGLE →
      (GetRealAddr fct st a junk).1 = a ∧ (GetRealAddr fct st a junk).2 = st) ∧
    (st.connectionMode = XQSPIPS_CONNECTION_MODE_PARALLEL →
      (GetRealAddr fct st a junk).1 = a / 2 ∧ (GetRealAddr fct st a junk).2 = st) ∧
    (st.connectionMode = XQSPIPS_CONNECTION_MODE_STACKED →
      (a &&& fct.FlashDeviceSize ≠ 0 →
        (GetRealAddr fct st a junk).1 = a - fct.FlashDeviceSize ∧
        (GetRealAddr fct st a junk).2.lqspiCr &&& XQSPIPS_LQSPI_CR_U_PAGE_MASK =
          XQSPIPS_LQSPI_CR_U_PAGE_MASK) ∧
      (a &&& fct.FlashDeviceSize = 0 →
        (GetRealAddr fct st a junk).1 = a ∧
        (GetRealAddr fct st a junk).2.lqspiCr &&& XQSPIPS_LQSPI_CR_U_PAGE_MASK = 0)) := by
  refine ⟨?_, ?_, ?_⟩
  · intro hmode
    simp [GetRealAddr, hmode]
  · intro hmode
    simp [GetRealAddr, hmode, XQSPIPS_CONNECTION_MODE_PARALLEL,
      XQSPIPS_CONNECTION_MODE_SINGLE, XQSPIPS_CONNECTION_MODE_STACKED]
  · intro hmode
    constructor
    · intro hset
      have hmask : (0xFFFFFFFF : Nat) = 2 ^ 32 - 1 := by norm_num
      have htrans : a &&& (0xFFFFFFFF ^^^ fct.FlashDeviceSize) = a - fct.FlashDeviceSize := by
        rw [hmask, hD]
        rw [hD] at hset
        exact and_comp_two_pow_of_set ha hset
      constructor
      · simp only [GetRealAddr, hmode, XQSPIPS_CONNECTION_MODE_SINGLE,
          XQSPIPS_CONNECTION_MODE_STACKED, XQSPIPS_CONNECTION_MODE_PARALLEL]
        simp [hset, htrans]
      · simp only [GetRealAddr, hmode, XQSPIPS_CONNECTION_MODE_SINGLE,
          XQSPIPS_CONNECTION_MODE_STACKED, XQSPIPS_CONNECTION_MODE_PARALLEL]
        simp [hset, or_upage_bit_set]
    · intro hclr
      constructor
      · simp only [GetRealAddr, hmode, XQSPIPS_CONNECTION_MODE_SINGLE,
          XQSPIPS_CONNECTION_MODE_STACKED, XQSPIPS_CONNECTION_MODE_PARALLEL]
        simp [hclr]
      · simp only [GetRealAddr, hmode, XQSPIPS_CONNECTION_MODE_SINGLE,
          XQSPIPS_CONNECTION_MODE_STACKED, XQSPIPS_CONNECTION_MODE_PARALLEL]
        simp [hclr, and_comp_upage_bit_clear]

/-- Witness for C1: the stacked 256 Mb Spansion row (per-chip size 2^25) at
address 0x2000001 selects the upper chip and subtracts the chip size. -/
theorem getRealAddr_translation_witness :
    (GetRealAddr (FCT 4) ⟨XQSPIPS_CONNECTION_MODE_STACKED, 0⟩ 0x2000001 0).1 =
        0x2000001 - (FCT 4).FlashDeviceSize ∧
    (GetRealAddr (FCT 4) ⟨XQSPIPS_CONNECTION_MODE_STACKED, 0⟩ 0x2000001 0).2.lqspiCr &&&
        XQSPIPS_LQSPI_CR_U_PAGE_MASK = XQSPIPS_LQSPI_CR_U_PAGE_MASK :=
  ((getRealAddr_translation (FCT 4) ⟨XQSPIPS_CONNECTION_MODE_STACKED, 0⟩ 0x2000001 0 25
      (by norm_num) (by decide) (by norm_num)).2.2 rfl).1 (by decide)

/-- C10: when the connection mode is none of Single, Stacked or Parallel,
GetRealAddr returns the unassigned local variable (the junk parameter), so
the result is not determined by the inputs. -/
theorem getRealAddr_default_unassigned (fct : FlashInfo) (st : QspiState) (a junk : Nat)
    (h0 : st.connectionMode ≠ XQSPIPS_CONNECTION_MODE_SINGLE)
    (h1 : st.connectionMode ≠ XQSPIPS_CONNECTION_MODE_STACKED)
    (h2 : st.connectionMode ≠ XQSPIPS_CONNECTION_MODE_PARALLEL) :
    (GetRealAddr fct st a junk).1 = junk ∧ (GetRealAddr fct st a junk).2 = st := by
  simp [GetRealAddr, h0, h1, h2]

/-- Witness for C10: with connection mode 3, two different indeterminate
stack values give two different results for the same address. -/
theorem getRealAddr_default_unassigned_witness :
    (GetRealAddr default ⟨3, 0⟩ 5 42).1 = 42 ∧ (GetRealAddr default ⟨3, 0⟩ 5 43).1 = 43 :=
  ⟨(getRealAddr_default_unassigned default ⟨3, 0⟩ 5 42 (by decide) (by decide) (by decide)).1,
   (getRealAddr_default_unassigned default ⟨3, 0⟩ 5 43 (by decide) (by decide) (by decide)).1⟩

/-- C6: for ID bytes manufacturer 0x20 (Micron) and size code 0x19 (256 Mb)
with Single topology, FlashReadID selects table index MICRON_INDEX_START + 3,
whose row is the single-chip 256 Mb Micron geometry, regardless of the
previous identification state. -/
theorem flashReadID_micron_256_single (FlashMake0 FCTIndex0 startJunk : Nat) :
    (FlashReadID XQSPIPS_CONNECTION_MODE_SINGLE FlashMake0 FCTIndex0 MICRON_ID_BYTE0
        MICRON_ID_BYTE2_256 true startJunk).FCTIndex = MICRON_INDEX_START + 3 ∧
    (FlashReadID XQSPIPS_CONNECTION_MODE_SINGLE FlashMake0 FCTIndex0 MICRON_ID_BYTE0
        MICRON_ID_BYTE2_256 true startJunk).FlashMake = MICRON_ID_BYTE0 ∧
    (FlashReadID XQSPIPS_CONNECTION_MODE_SINGLE FlashMake0 FCTIndex0 MICRON_ID_BYTE0
        MICRON_ID_BYTE2_256 true startJunk).status = XST_SUCCESS ∧
    FCT (MICRON_INDEX_START + 3) =
      ⟨0x10000, 0x200, 256, 0x20000, 0x2000000, MICRON_ID_BYTE0, MICRON_ID_BYTE2_256,
        0xFFFF0000, 1⟩ := by
  refine ⟨rfl, rfl, rfl, rfl⟩

/-- C9: a full-device erase in Stacked topology leaves the U_PAGE bit of the
shared LQSPI configuration register set: the upper chip remains selected and
the initially selected lower chip is not restored. -/
theorem flashErase_fullDevice_stacked_upage (fct : FlashInfo) (FlashMake : Nat)
    (st : QspiState) (Address busyPolls junk : Nat)
    (hmode : st.connectionMode = XQSPIPS_CONNECTION_MODE_STACKED) :
    (FlashErase fct FlashMake st Address ((fct.NumSect * fct.SectSize) % U32)
        busyPolls junk).2.lqspiCr &&& XQSPIPS_LQSPI_CR_U_PAGE_MASK =
      XQSPIPS_LQSPI_CR_U_PAGE_MASK := by
  simp only [FlashErase, hmode, if_pos rfl]
  simp [or_upage_bit_set]

/-- Witness for C9: the stacked 256 Mb Spansion row, full-device byte count,
starting from a configuration register with U_PAGE clear. -/
theorem flashErase_fullDevice_stacked_upage_witness :
    (FlashErase (FCT 4) SPANSION_ID_BYTE0 ⟨XQSPIPS_CONNECTION_MODE_STACKED, 0⟩ 0
        (((FCT 4).NumSect * (FCT 4).SectSize) % U32) 0 0).2.lqspiCr &&&
      XQSPIPS_LQSPI_CR_U_PAGE_MASK = XQSPIPS_LQSPI_CR_U_PAGE_MASK :=
  flashErase_fullDevice_stacked_upage (FCT 4) SPANSION_ID_BYTE0
    ⟨XQSPIPS_CONNECTION_MODE_STACKED, 0⟩ 0 0 0 rfl

/-! ### Ceiling-division arithmetic -/

/-- The driver's sector/page count ByteCount / size + 1 versus the ceiling:
they agree when size does not divide ByteCount, and the driver is one larger
when it does. -/
theorem div_succ_eq_ceil (B S : Nat) (hS : 0 < S) :
    B / S + 1 = (B + S - 1) / S + (if S ∣ B then 1 else 0) := by
  rcases Nat.eq_zero_or_pos (B % S) with hr | hr
  · have hdvd : S ∣ B := Nat.dvd_iff_mod_eq_zero.mpr hr
    rw [if_pos hdvd]
    obtain ⟨m, rfl⟩ := hdvd
    have h1 : (S * m + S - 1) / S = m := by
      have h2 : S * m + S - 1 = S * m + (S - 1) := by omega
      rw [h2, Nat.mul_add_div hS, Nat.div_eq_of_lt (by omega)]
      omega
    rw [h1, Nat.mul_div_cancel_left m hS]
  · have hdvd : ¬S ∣ B := by
      intro h
      rw [Nat.dvd_iff_mod_eq_zero.mp h] at hr
      exact absurd hr (by omega)
    rw [if_neg hdvd, Nat.add_zero]
    have hlt : B % S < S := Nat.mod_lt _ hS
    have h2 : B + S - 1 = S * (B / S) + (B % S - 1 + S) := by
      have := Nat.div_add_mod B S
      omega
    rw [h2, Nat.mul_add_div hS, Nat.add_div_right _ hS,
      Nat.div_eq_of_lt (by omega : B % S - 1 < S)]

/-! ### Counting sector-erase transactions in the erase trace -/

theorem countSecErase_sendBank (make b : Nat) : countSecErase (SendBankSelect make b) = 0 := by
  unfold countSecErase SendBankSelect
  split_ifs <;> rfl

theorem countSecErase_replicate (n : Nat) (t : Txn)
    (h : (t.send.head? == some SEC_ERASE_CMD) = false) :
    countSecErase (List.replicate n t) = 0 := by
  induction n with
  | zero => rfl
  | succ n ih =>
    rw [List.replicate_succ]
    unfold countSecErase at ih ⊢
    rw [List.countP_cons, ih, h]
    rfl

theorem countSecErase_wait (fct : FlashInfo) (make polls : Nat) :
    countSecErase (waitReadyTxns fct make polls) = 0 := by
  unfold waitReadyTxns countSecErase
  rw [List.countP_append, List.countP_append]
  have h1 : countSecErase (List.replicate (polls + 1) readStatusTxn) = 0 :=
    countSecErase_replicate _ _ (by rfl)
  unfold countSecErase at h1
  rw [h1]
  split_ifs <;> rfl

theorem countSecErase_eraseLoop (fct : FlashInfo) (make polls junk : Nat) :
    ∀ (n : Nat) (st : QspiState) (A : Nat) (bi : Bool) (bs : Nat),
      countSecErase (FlashEraseLoop fct make polls junk n st A bi bs).1 = n := by
  intro n
  induction n with
  | zero => intro st A bi bs; rfl
  | succ n ih =>
    intro st A bi bs
    show countSecErase (FlashEraseLoop fct make polls junk (n + 1) st A bi bs).1 = n + 1
    unfold FlashEraseLoop countSecErase
    simp only [List.countP_append]
    have hb : ∀ (c : Prop) [Decidable c] (b : Nat),
        List.countP (fun t => t.send.head? == some SEC_ERASE_CMD)
          (if c then SendBankSelect make b else []) = 0 := by
      intro c _ b
      split_ifs with hc
      · exact countSecErase_sendBank make b
      · rfl
    rw [hb, hb]
    have hw := countSecErase_wait fct make polls
    unfold countSecErase at hw
    rw [hw]
    have hrest := ih (GetRealAddr fct st A junk).2 ((A + fct.SectSize) % U32)
      (if bi = true ∧ SIXTEENMB < fct.FlashDeviceSize then false else bi)
      (if (if bi = true ∧ SIXTEENMB < fct.FlashDeviceSize then
            (GetRealAddr fct st A junk).1 / SIXTEENMB else bs) ≠
          (GetRealAddr fct st A junk).1 / SIXTEENMB ∧ SIXTEENMB < fct.FlashDeviceSize then
        (GetRealAddr fct st A junk).1 / SIXTEENMB
      else if bi = true ∧ SIXTEENMB < fct.FlashDeviceSize then
        (GetRealAddr fct st A junk).1 / SIXTEENMB else bs)
    unfold countSecErase at hrest
    rw [hrest]
    simp [List.countP_cons, writeEnableTxn, WRITE_ENABLE_CMD, SEC_ERASE_CMD]
    omega

/-- C2 (amended): for a partial erase, the number of sector-erase
transactions is ByteCount / SectSize + 1 (one more than the ceiling when
SectSize divides ByteCount), plus one more when the boundary-overlap
condition triggers. -/
theorem flashErase_partial_sector_count (fct : FlashInfo) (FlashMake : Nat)
    (st : QspiState) (Address ByteCount busyPolls junk : Nat)
    (hS : 0 < fct.SectSize)
    (hPart : ByteCount ≠ (fct.NumSect * fct.SectSize) % U32) :
    countSecErase (FlashErase fct FlashMake st Address ByteCount busyPolls junk).1 =
      (ByteCount + fct.SectSize - 1) / fct.SectSize
        + (if fct.SectSize ∣ ByteCount then 1 else 0)
        + (if eraseSectorOverlap fct Address ByteCount = true then 1 else 0) := by
  unfold FlashErase
  rw [if_neg hPart, countSecErase_eraseLoop]
  unfold eraseNumSect
  rw [div_succ_eq_ceil ByteCount fct.SectSize hS]
  split_ifs <;> omega

/-- Witness for C2: the concrete geometry of the claim (sector size 0x10000,
address 0, byte count 0x10001) erases exactly 2 sectors. -/
theorem flashErase_partial_sector_count_witness :
    countSecErase (FlashErase (FCT 0) SPANSION_ID_BYTE0
      ⟨XQSPIPS_CONNECTION_MODE_SINGLE, 0⟩ 0 0x10001 0 0).1 = 2 := by
  have h := flashErase_partial_sector_count (FCT 0) SPANSION_ID_BYTE0
    ⟨XQSPIPS_CONNECTION_MODE_SINGLE, 0⟩ 0 0x10001 0 0 (by decide) (by decide)
  rw [h]
  decide

/-- Counterexample for C2: at sector size 0x10000, address 0 and byte count
0x10000 (an exact sector multiple), the code erases 2 sectors while the
claimed formula (ceiling plus boundary-overlap increment) gives 1: the
boundary-overlap condition does not trigger. -/
theorem flashErase_sector_count_counterexample :
    countSecErase (FlashErase (FCT 0) SPANSION_ID_BYTE0
        ⟨XQSPIPS_CONNECTION_MODE_SINGLE, 0⟩ 0 0x10000 0 0).1 = 2 ∧
    (0x10000 + (FCT 0).SectSize - 1) / (FCT 0).SectSize = 1 ∧
    eraseSectorOverlap (FCT 0) 0 0x10000 = false := by
  refine ⟨?_, by decide, by decide⟩
  have h := flashErase_partial_sector_count (FCT 0) SPANSION_ID_BYTE0
    ⟨XQSPIPS_CONNECTION_MODE_SINGLE, 0⟩ 0 0x10000 0 0 (by decide) (by decide)
  rw [h]
  decide

/-! ### C7: identification of an unrecognized device -/

/-- Counterexample for C7: the response (0x20, _, 0xFF) matches no catalog
entry (size code 0xFF appears in no row), yet FlashReadID updates the
FlashMake global from its default 0 to 0x20 while still returning success —
the claim's assertion that the manufacturer state is left unchanged fails. -/
theorem flashReadID_unmatched_counterexample :
    catalogHasEntry MICRON_ID_BYTE0 0xFF = false ∧
    (FlashReadID XQSPIPS_CONNECTION_MODE_SINGLE 0 0 MICRON_ID_BYTE0 0xFF true 0).FlashMake ≠ 0 ∧
    (FlashReadID XQSPIPS_CONNECTION_MODE_SINGLE 0 0 MICRON_ID_BYTE0 0xFF true 0).FCTIndex = 0 ∧
    (FlashReadID XQSPIPS_CONNECTION_MODE_SINGLE 0 0 MICRON_ID_BYTE0 0xFF true 0).status =
      XST_SUCCESS := by
  decide

/-- C7 (amended): from the default-zero identification state, a response
whose manufacturer/size-code pair matches no catalog row leaves the selected
geometry-table row at its default 0 and still returns success; the
manufacturer global is left unchanged when the manufacturer byte itself is
unrecognized, but is updated when the manufacturer byte is recognized even
though the pair matches no row. -/
theorem flashReadID_no_catalog_match (mode b1 b3 startJunk : Nat)
    (hnone : catalogHasEntry b1 b3 = false) :
    (FlashReadID mode 0 0 b1 b3 true startJunk).FCTIndex = 0 ∧
    (FlashReadID mode 0 0 b1 b3 true startJunk).status = XST_SUCCESS ∧
    (manufacturerKnown b1 = false → (FlashReadID mode 0 0 b1 b3 true startJunk).FlashMake = 0) := by
  by_cases hM : b1 = 0x20
  · subst hM
    have h18 : b3 ≠ 0x18 := by
      intro h; rw [h] at hnone; exact absurd hnone (by decide)
    have h19 : b3 ≠ 0x19 := by
      intro h; rw [h] at hnone; exact absurd hnone (by decide)
    have h20 : b3 ≠ 0x20 := by
      intro h; rw [h] at hnone; exact absurd hnone (by decide)
    have h21 : b3 ≠ 0x21 := by
      intro h; rw [h] at hnone; exact absurd hnone (by decide)
    simp [FlashReadID, manufacturerKnown, XST_SUCCESS, MICRON_ID_BYTE0, SPANSION_ID_BYTE0,
      WINBOND_ID_BYTE0, MACRONIX_ID_BYTE0, MICRON_ID_BYTE2_128, MICRON_ID_BYTE2_256,
      MICRON_ID_BYTE2_512, MICRON_ID_BYTE2_1G, MACRONIX_ID_BYTE2_512, MACRONIX_ID_BYTE2_1G,
      h18, h19, h20, h21]
  · by_cases hS : b1 = 0x01
    · subst hS
      have h18 : b3 ≠ 0x18 := by
        intro h; rw [h] at hnone; exact absurd hnone (by decide)
      have h19 : b3 ≠ 0x19 := by
        intro h; rw [h] at hnone; exact absurd hnone (by decide)
      have h20 : b3 ≠ 0x20 := by
        intro h; rw [h] at hnone; exact absurd hnone (by decide)
      simp [FlashReadID, manufacturerKnown, XST_SUCCESS, MICRON_ID_BYTE0, SPANSION_ID_BYTE0,
        WINBOND_ID_BYTE0, MACRONIX_ID_BYTE0, MICRON_ID_BYTE2_128, MICRON_ID_BYTE2_256,
        MICRON_ID_BYTE2_512, MICRON_ID_BYTE2_1G, MACRONIX_ID_BYTE2_512, MACRONIX_ID_BYTE2_1G,
        h18, h19, h20]
    · by_cases hW : b1 = 0xEF
      · subst hW
        have h18 : b3 ≠ 0x18 := by
          intro h; rw [h] at hnone; exact absurd hnone (by decide)
        simp [FlashReadID, manufacturerKnown, XST_SUCCESS, MICRON_ID_BYTE0, SPANSION_ID_BYTE0,
          WINBOND_ID_BYTE0, MACRONIX_ID_BYTE0, MICRON_ID_BYTE2_128, MICRON_ID_BYTE2_256,
          MICRON_ID_BYTE2_512, MICRON_ID_BYTE2_1G, MACRONIX_ID_BYTE2_512, MACRONIX_ID_BYTE2_1G,
          h18]
      · by_cases hX : b1 = 0xC2
        · subst hX
          have h19 : b3 ≠ 0x19 := by
            intro h; rw [h] at hnone; exact absurd hnone (by decide)
          have h1A : b3 ≠ 0x1A := by
            intro h; rw [h] at hnone; exact absurd hnone (by decide)
          have h1B : b3 ≠ 0x1B := by
            intro h; rw [h] at hnone; exact absurd hnone (by decide)
          simp [FlashReadID, manufacturerKnown, XST_SUCCESS, MICRON_ID_BYTE0, SPANSION_ID_BYTE0,
            WINBOND_ID_BYTE0, MACRONIX_ID_BYTE0, MICRON_ID_BYTE2_128, MICRON_ID_BYTE2_256,
            MICRON_ID_BYTE2_512, MICRON_ID_BYTE2_1G, MACRONIX_ID_BYTE2_512, MACRONIX_ID_BYTE2_1G,
            h19, h1A, h1B]
        · simp [FlashReadID, manufacturerKnown, XST_SUCCESS, MICRON_ID_BYTE0, SPANSION_ID_BYTE0,
            WINBOND_ID_BYTE0, MACRONIX_ID_BYTE0, MICRON_ID_BYTE2_128, MICRON_ID_BYTE2_256,
            MICRON_ID_BYTE2_512, MICRON_ID_BYTE2_1G, MACRONIX_ID_BYTE2_512, MACRONIX_ID_BYTE2_1G,
            hM, hS, hW, hX]

/-- Witness for C7 (amended): all-0xFF ID bytes from the default state leave
both globals unchanged and return success. -/
theorem flashReadID_no_catalog_match_witness :
    (FlashReadID XQSPIPS_CONNECTION_MODE_SINGLE 0 0 0xFF 0xFF true 0).FCTIndex = 0 ∧
    (FlashReadID XQSPIPS_CONNECTION_MODE_SINGLE 0 0 0xFF 0xFF true 0).status = XST_SUCCESS ∧
    (FlashReadID XQSPIPS_CONNECTION_MODE_SINGLE 0 0 0xFF 0xFF true 0).FlashMake = 0 := by
  have h := flashReadID_no_catalog_match XQSPIPS_CONNECTION_MODE_SINGLE 0xFF 0xFF 0 (by decide)
  exact ⟨h.1, h.2.1, h.2.2 (by decide)⟩

/-! ### C8: the update orchestrator -/

/-- Counterexample for C8: with page size 256 and an image length of exactly
256 bytes, update_flash issues 2 page programs while the claimed count
ceil(length / pageSize) is 1. -/
theorem update_flash_pagecount_counterexample :
    ((update_flash_ops (FCT 0) 256).filter isWriteOp).length = 2 ∧
    (256 + (FCT 0).PageSize - 1) / (FCT 0).PageSize = 1 := by
  decide

/-- C8 (amended): update_flash copies the source into the write buffer at the
4-byte protocol-header offset, erases the image region sized to length, and
issues length / pageSize + 1 page programs (ceil(length/pageSize) when
pageSize does not divide length, one more when it does) at consecutive
page-aligned addresses starting from the image base. -/
theorem update_flash_structure (fct : FlashInfo) (length : Nat)
    (hPS : 0 < fct.PageSize) :
    (∀ buffer writeBuffer k, k < length →
      update_flash_copy buffer writeBuffer length (k + 4) = buffer k) ∧
    (update_flash_ops fct length).head? = some (FlashOp.erase BIN_START_ADDRESS length) ∧
    (update_flash_ops fct length).filter isWriteOp =
      (List.range ((length + fct.PageSize - 1) / fct.PageSize
          + (if fct.PageSize ∣ length then 1 else 0))).map fun Page =>
        FlashOp.write ((Page * fct.PageSize) % U32) fct.PageSize WRITE_CMD := by
  refine ⟨?_, rfl, ?_⟩
  · intro buffer writeBuffer k hk
    simp only [update_flash_copy]
    rw [if_pos (by omega), Nat.add_sub_cancel]
  · rw [← div_succ_eq_ceil length fct.PageSize hPS]
    simp only [update_flash_ops, List.filter_cons, List.filter_append, List.filter_map,
      BIN_START_ADDRESS, Nat.add_zero]
    have hfil : ∀ l : List Nat,
        List.filter (isWriteOp ∘ fun Page =>
          FlashOp.write (Page * fct.PageSize % U32) fct.PageSize WRITE_CMD) l = l := by
      intro l
      refine List.filter_eq_self.mpr ?_
      intro a _
      rfl
    simp [isWriteOp, hfil]

/-- Witness for C8 (amended): page size 256 and length 300 give 2 page
programs at addresses 0 and 256. -/
theorem update_flash_structure_witness :
    (update_flash_ops (FCT 0) 300).filter isWriteOp =
      [FlashOp.write 0 256 WRITE_CMD, FlashOp.write 256 256 WRITE_CMD] := by
  have h := (update_flash_structure (FCT 0) 300 (by decide)).2.2
  rw [h]
  decide

/-! ### C4: the single-page program sequence -/

theorem and_ff0000_shr (r : Nat) : (r &&& 0xFF0000) >>> 16 = r / 65536 % 256 := by
  have h : (0xFF0000 : Nat) = 2 ^ 24 - 1 ^^^ (2 ^ 16 - 1) := by decide
  rw [h, and_bit_window (by norm_num) r, Nat.shiftRight_eq_div_pow,
    Nat.mul_div_cancel_left _ (Nat.two_pow_pos 16)]
  norm_num

theorem and_ff00_shr (r : Nat) : (r &&& 0xFF00) >>> 8 = r / 256 % 256 := by
  have h : (0xFF00 : Nat) = 2 ^ 16 - 1 ^^^ (2 ^ 8 - 1) := by decide
  rw [h, and_bit_window (by norm_num) r, Nat.shiftRight_eq_div_pow,
    Nat.mul_div_cancel_left _ (Nat.two_pow_pos 8)]
  norm_num

theorem and_ff (r : Nat) : r &&& 0xFF = r % 256 := by
  have h : (0xFF : Nat) = 2 ^ 8 - 1 := by norm_num
  rw [h, Nat.and_pow_two_sub_one_eq_mod]

/-- C4: a FlashWrite call issues exactly: the bank-select transactions when
the device exceeds 16 MB, then write-enable, then one transmit of the
command, the translated address as 3 bytes MSB-first, and the payload, then
one flag-status read iff the part is multi-die Micron, then status polls
until the write-in-progress bit clears, then one more flag-status read iff
multi-die Micron; the 3 address bytes reassemble to the translated address
reduced modulo 2^24 (higher bits truncated). -/
theorem flashWrite_sequence (fct : FlashInfo) (FlashMake : Nat) (st : QspiState)
    (Address ByteCount Command : Nat) (payload : Nat → Nat) (busyPolls junk : Nat) :
    (FlashWrite fct FlashMake st Address ByteCount Command payload busyPolls junk).1 =
      (if SIXTEENMB < fct.FlashDeviceSize then
        SendBankSelect FlashMake ((GetRealAddr fct st Address junk).1 / SIXTEENMB)
      else [])
      ++ [writeEnableTxn]
      ++ [⟨Command :: (GetRealAddr fct st Address junk).1 / 65536 % 256 ::
            (GetRealAddr fct st Address junk).1 / 256 % 256 ::
            (GetRealAddr fct st Address junk).1 % 256 ::
            (List.range ByteCount).map payload,
          (ByteCount + OVERHEAD_SIZE) % U32⟩]
      ++ (if 1 < fct.NumDie ∧ FlashMake = MICRON_ID_BYTE0 then [flagStatusTxn] else [])
      ++ List.replicate (busyPolls + 1) readStatusTxn
      ++ (if 1 < fct.NumDie ∧ FlashMake = MICRON_ID_BYTE0 then [flagStatusTxn] else []) ∧
    (GetRealAddr fct st Address junk).1 / 65536 % 256 * 65536
      + (GetRealAddr fct st Address junk).1 / 256 % 256 * 256
      + (GetRealAddr fct st Address junk).1 % 256
      = (GetRealAddr fct st Address junk).1 % 2 ^ 24 := by
  constructor
  · simp only [FlashWrite, waitReadyTxns]
    rw [and_ff0000_shr, and_ff00_shr, and_ff]
    simp only [List.append_assoc]
  · have h24 : (2 : Nat) ^ 24 = 16777216 := by norm_num
    rw [h24]
    omega

/-! ### C3: bank-select frames of the erase and read loops -/

theorem getRealAddr_lt (fct : FlashInfo) (st : QspiState) (A junk : Nat)
    (hA : A < U32) (hj : junk < U32) : (GetRealAddr fct st A junk).1 < U32 := by
  unfold GetRealAddr
  split_ifs
  · exact hA
  · exact lt_of_le_of_lt Nat.and_le_left hA
  · exact hA
  · exact lt_of_le_of_lt (Nat.div_le_self A 2) hA
  · exact hj

theorem banksOf_append (l1 l2 : List Txn) : banksOf (l1 ++ l2) = banksOf l1 ++ banksOf l2 :=
  List.filterMap_append l1 l2 bankSelByte

theorem banksOf_sendBank_known (make b : Nat)
    (h : make = MICRON_ID_BYTE0 ∨ make = SPANSION_ID_BYTE0) :
    banksOf (SendBankSelect make b) = [b % 256] := by
  rcases h with h | h <;> subst h <;> rfl

theorem banksOf_sendBank_other (make b : Nat) (h1 : make ≠ MICRON_ID_BYTE0)
    (h2 : make ≠ SPANSION_ID_BYTE0) : banksOf (SendBankSelect make b) = [] := by
  simp [SendBankSelect, h1, h2, banksOf]

theorem banksOf_replicate (n : Nat) (t : Txn) (h : bankSelByte t = none) :
    banksOf (List.replicate n t) = [] := by
  induction n with
  | zero => rfl
  | succ n ih =>
    rw [List.replicate_succ]
    unfold banksOf at ih ⊢
    rw [List.filterMap_cons, h, ih]

theorem banksOf_wait (fct : FlashInfo) (make polls : Nat) :
    banksOf (waitReadyTxns fct make polls) = [] := by
  unfold waitReadyTxns
  rw [banksOf_append, banksOf_append, banksOf_replicate _ _ (by rfl)]
  split_ifs <;> rfl

theorem banksOf_we_sec (e1 e2 e3 sz : Nat) :
    banksOf [writeEnableTxn, ⟨[SEC_ERASE_CMD, e1, e2, e3], sz⟩] = [] := by
  rfl

theorem banksOf_cons_we (ts : List Txn) : banksOf (writeEnableTxn :: ts) = banksOf ts := by
  rfl

theorem banksOf_cons_sec (e1 e2 e3 sz : Nat) (ts : List Txn) :
    banksOf (⟨[SEC_ERASE_CMD, e1, e2, e3], sz⟩ :: ts) = banksOf ts := by
  rfl

/-- The sector loop of FlashErase with the bank already initialized emits a
bank-select frame only when the computed bank changes: starting from a
previously selected bank b, the emitted bank values form a chain with no two
adjacent values equal, even taking b into account. -/
theorem eraseLoop_banks_chain_false (fct : FlashInfo) (make polls junk : Nat)
    (hmk : make = MICRON_ID_BYTE0 ∨ make = SPANSION_ID_BYTE0) (hj : junk < U32) :
    ∀ (n : Nat) (st : QspiState) (A b : Nat), A < U32 →
      List.Chain' (· ≠ ·)
        (b :: banksOf (FlashEraseLoop fct make polls junk n st A false b).1) := by
  intro n
  induction n with
  | zero => intro st A b _; simp [FlashEraseLoop, banksOf]
  | succ n ih =>
    intro st A b hA
    have hR : (GetRealAddr fct st A junk).1 < U32 := getRealAddr_lt fct st A junk hA hj
    have hA2 : (A + fct.SectSize) % U32 < U32 := Nat.mod_lt _ (by norm_num [U32])
    simp only [FlashEraseLoop, Bool.false_eq_true, false_and, if_false, ite_false,
      List.nil_append]
    rw [banksOf_append, banksOf_append, banksOf_append, banksOf_we_sec, banksOf_wait]
    by_cases hNew : b ≠ (GetRealAddr fct st A junk).1 / SIXTEENMB ∧
        SIXTEENMB < fct.FlashDeviceSize
    · rw [if_pos hNew, if_pos hNew, banksOf_sendBank_known make _ hmk]
      have hnb : (GetRealAddr fct st A junk).1 / SIXTEENMB < 256 := by
        have : U32 = SIXTEENMB * 256 := by norm_num [U32, SIXTEENMB]
        exact Nat.div_lt_of_lt_mul (this ▸ hR)
      rw [Nat.mod_eq_of_lt hnb]
      simp only [List.nil_append, List.append_nil, List.cons_append]
      rw [List.chain'_cons]
      exact ⟨hNew.1, ih _ _ _ hA2⟩
    · rw [if_neg hNew, if_neg hNew]
      simpa using ih (GetRealAddr fct st A junk).2 ((A + fct.SectSize) % U32) b hA2

/-- The sector loop of FlashErase entered with the bank-initialization flag
set: the first bank select is emitted unconditionally and every further one
only on a bank change. -/
theorem eraseLoop_banks_chain_init (fct : FlashInfo) (make polls junk : Nat)
    (hmk : make = MICRON_ID_BYTE0 ∨ make = SPANSION_ID_BYTE0) (hj : junk < U32) :
    ∀ (n : Nat) (st : QspiState) (A bs : Nat), A < U32 →
      List.Chain' (· ≠ ·) (banksOf (FlashEraseLoop fct make polls junk n st A true bs).1) := by
  intro n
  induction n with
  | zero => intro st A bs _; simp [FlashEraseLoop, banksOf]
  | succ n ih =>
    intro st A bs hA
    have hR : (GetRealAddr fct st A junk).1 < U32 := getRealAddr_lt fct st A junk hA hj
    have hA2 : (A + fct.SectSize) % U32 < U32 := Nat.mod_lt _ (by norm_num [U32])
    by_cases hbig : SIXTEENMB < fct.FlashDeviceSize
    · have hnb : (GetRealAddr fct st A junk).1 / SIXTEENMB < 256 := by
        have h256 : U32 = SIXTEENMB * 256 := by norm_num [U32, SIXTEENMB]
        exact Nat.div_lt_of_lt_mul (h256 ▸ hR)
      have hchain := eraseLoop_banks_chain_false fct make polls junk hmk hj n
        (GetRealAddr fct st A junk).2 ((A + fct.SectSize) % U32)
        ((GetRealAddr fct st A junk).1 / SIXTEENMB) hA2
      simp only [FlashEraseLoop]
      simpa [hbig, banksOf_append, banksOf_we_sec, banksOf_cons_we, banksOf_cons_sec,
        banksOf_wait, banksOf_sendBank_known make _ hmk, Nat.mod_eq_of_lt hnb] using hchain
    · have hrest := ih (GetRealAddr fct st A junk).2 ((A + fct.SectSize) % U32) bs hA2
      simp only [FlashEraseLoop]
      simpa [hbig, banksOf_append, banksOf_we_sec, banksOf_cons_we, banksOf_cons_sec,
        banksOf_wait] using hrest

/-- For manufacturers with no implemented bank-select command (Winbond,
Macronix), the erase loop emits no bank-select frame at all. -/
theorem eraseLoop_banks_other (fct : FlashInfo) (make polls junk : Nat)
    (h1 : make ≠ MICRON_ID_BYTE0) (h2 : make ≠ SPANSION_ID_BYTE0) :
    ∀ (n : Nat) (st : QspiState) (A : Nat) (bi : Bool) (bs : Nat),
      banksOf (FlashEraseLoop fct make polls junk n st A bi bs).1 = [] := by
  intro n
  induction n with
  | zero => intro st A bi bs; rfl
  | succ n ih =>
    intro st A bi bs
    simp only [FlashEraseLoop]
    rw [banksOf_append, banksOf_append, banksOf_append, banksOf_append, banksOf_we_sec,
      banksOf_wait, ih]
    have hb : ∀ (c : Prop) [Decidable c] (b : Nat),
        banksOf (if c then SendBankSelect make b else []) = [] := by
      intro c _ b
      split_ifs with hc
      · exact banksOf_sendBank_other make b h1 h2
      · rfl
    rw [hb, hb]
    rfl

theorem banksOf_bulkErase (polls : Nat) : banksOf (BulkErase polls) = [] := by
  unfold BulkErase
  rw [banksOf_append, banksOf_replicate _ _ (by rfl)]
  rfl

theorem banksOf_dieErase_known (fct : FlashInfo) (make polls : Nat)
    (hmk : make = MICRON_ID_BYTE0 ∨ make = SPANSION_ID_BYTE0) :
    banksOf (DieErase fct make polls) = (List.range fct.NumDie).map fun d => d * 2 % 256 := by
  unfold DieErase
  suffices h : ∀ l : List Nat,
      banksOf (l.flatMap fun DieCnt =>
        SendBankSelect make (DieCnt * 2)
          ++ [writeEnableTxn, ⟨[DIE_ERASE_CMD, 0, 0, 0], DIE_ERASE_SIZE⟩]
          ++ List.replicate (polls + 1) flagStatusTxn) = l.map fun d => d * 2 % 256 from
    h (List.range fct.NumDie)
  intro l
  induction l with
  | nil => rfl
  | cons a l ih =>
    rw [List.flatMap_cons, banksOf_append, ih, banksOf_append, banksOf_append,
      banksOf_sendBank_known make _ hmk, banksOf_replicate _ _ (by rfl)]
    rfl

theorem banksOf_dieErase_other (fct : FlashInfo) (make polls : Nat)
    (h1 : make ≠ MICRON_ID_BYTE0) (h2 : make ≠ SPANSION_ID_BYTE0) :
    banksOf (DieErase fct make polls) = [] := by
  unfold DieErase
  suffices h : ∀ l : List Nat,
      banksOf (l.flatMap fun DieCnt =>
        SendBankSelect make (DieCnt * 2)
          ++ [writeEnableTxn, ⟨[DIE_ERASE_CMD, 0, 0, 0], DIE_ERASE_SIZE⟩]
          ++ List.replicate (polls + 1) flagStatusTxn) = [] from
    h (List.range fct.NumDie)
  intro l
  induction l with
  | nil => rfl
  | cons a l ih =>
    rw [List.flatMap_cons, banksOf_append, ih, banksOf_append, banksOf_append,
      banksOf_sendBank_other make _ h1 h2, banksOf_replicate _ _ (by rfl)]
    rfl

theorem bankSelByte_read (c a1 a2 a3 sz : Nat) (h1 : c ≠ EXTADD_REG_WR)
    (h2 : c ≠ BANK_REG_WR) : bankSelByte ⟨[c, a1, a2, a3], sz⟩ = none := by
  simp [bankSelByte, h1, h2]

theorem banksOf_cons_read (c a1 a2 a3 sz : Nat) (ts : List Txn) (h1 : c ≠ EXTADD_REG_WR)
    (h2 : c ≠ BANK_REG_WR) : banksOf (⟨[c, a1, a2, a3], sz⟩ :: ts) = banksOf ts := by
  unfold banksOf
  rw [List.filterMap_cons, bankSelByte_read c a1 a2 a3 sz h1 h2]

theorem filter_isData_sendBank (make b : Nat) :
    (SendBankSelect make b).filter isDataTxn = [] := by
  unfold SendBankSelect
  split_ifs <;> rfl

theorem banksOf_nil : banksOf [] = [] := rfl

/-- The read loop emits exactly one bank-select frame per chunk (data
transaction), unconditionally: it does not track the previously selected
bank. -/
theorem readLoop_banks_per_chunk (fct : FlashInfo) (make Command junk : Nat)
    (hmk : make = MICRON_ID_BYTE0 ∨ make = SPANSION_ID_BYTE0)
    (hbig : SIXTEENMB < fct.FlashDeviceSize)
    (hc1 : Command ≠ EXTADD_REG_WR) (hc2 : Command ≠ BANK_REG_WR) :
    ∀ (fuel : Nat) (st : QspiState) (A B : Nat),
      (banksOf (FlashReadLoop fct make Command junk fuel st A B).1).length =
        ((FlashReadLoop fct make Command junk fuel st A B).1.filter isDataTxn).length := by
  intro fuel
  induction fuel with
  | zero => intro st A B; rfl
  | succ f ih =>
    intro st A B
    by_cases hguard : B = 0 ∨ 2 ^ 31 ≤ B
    · simp only [FlashReadLoop]
      rw [if_pos hguard]
      rfl
    · simp only [FlashReadLoop]
      rw [if_neg hguard]
      simp only [if_pos hbig]
      rw [banksOf_append, banksOf_append, banksOf_sendBank_known make _ hmk,
        banksOf_cons_read _ _ _ _ _ _ hc1 hc2, banksOf_nil,
        List.filter_append, List.filter_append, filter_isData_sendBank,
        List.filter_cons_of_pos (by rfl)]
      simp only [List.length_append, List.length_cons, List.length_nil, List.nil_append,
        List.filter_nil]
      rw [ih]

/-- C3 (amended): for every erase operation the driver emits a bank-select
frame only when the computed bank differs from the previously selected one
(no two adjacent emitted bank values are equal over the whole erase trace);
for reads, however, the loop emits one bank-select frame per chunk
unconditionally, so the number of frames equals the number of data
transactions even when consecutive chunks fall in the same bank. -/
theorem bankSelect_emission (fct : FlashInfo) (make : Nat) (st : QspiState)
    (Address ByteCount polls junk : Nat) (hj : junk < U32) (hA : Address < U32)
    (hdie : fct.NumDie ≤ 4) :
    List.Chain' (· ≠ ·) (banksOf (FlashErase fct make st Address ByteCount polls junk).1) ∧
    (∀ (Command fuel : Nat) (st2 : QspiState) (A2 B2 : Nat),
      (make = MICRON_ID_BYTE0 ∨ make = SPANSION_ID_BYTE0) →
      SIXTEENMB < fct.FlashDeviceSize →
      Command ≠ EXTADD_REG_WR → Command ≠ BANK_REG_WR →
      (banksOf (FlashReadLoop fct make Command junk fuel st2 A2 B2).1).length =
        ((FlashReadLoop fct make Command junk fuel st2 A2 B2).1.filter isDataTxn).length) := by
  constructor
  · by_cases hmk : make = MICRON_ID_BYTE0 ∨ make = SPANSION_ID_BYTE0
    · unfold FlashErase
      by_cases hfull : ByteCount = (fct.NumSect * fct.SectSize) % U32
      · rw [if_pos hfull]
        have hdieBanks := banksOf_dieErase_known fct make polls hmk
        have hbulk := banksOf_bulkErase polls
        obtain hN : fct.NumDie = 0 ∨ fct.NumDie = 1 ∨ fct.NumDie = 2 ∨ fct.NumDie = 3 ∨
            fct.NumDie = 4 := by omega
        by_cases hstk : st.connectionMode = XQSPIPS_CONNECTION_MODE_STACKED
        · simp only [hstk, if_pos rfl]
          rcases hN with hN | hN | hN | hN | hN <;>
            simp [hN, banksOf_append, banksOf_nil, hdieBanks, hbulk, List.range_succ]
        · simp only [hstk, if_neg hstk]
          rcases hN with hN | hN | hN | hN | hN <;>
            simp [hN, banksOf_append, banksOf_nil, hdieBanks, hbulk, List.range_succ]
      · rw [if_neg hfull]
        exact eraseLoop_banks_chain_init fct make polls junk hmk hj _ st Address 0 hA
    · have h1 : make ≠ MICRON_ID_BYTE0 := fun h => hmk (Or.inl h)
      have h2 : make ≠ SPANSION_ID_BYTE0 := fun h => hmk (Or.inr h)
      unfold FlashErase
      by_cases hfull : ByteCount = (fct.NumSect * fct.SectSize) % U32
      · rw [if_pos hfull]
        have hdieBanks := banksOf_dieErase_other fct make polls h1 h2
        have hbulk := banksOf_bulkErase polls
        by_cases hstk : st.connectionMode = XQSPIPS_CONNECTION_MODE_STACKED
        · simp only [hstk, if_pos rfl]
          split_ifs <;> simp [banksOf_append, banksOf_nil, hdieBanks, hbulk]
        · simp only [hstk, if_neg hstk]
          split_ifs <;> simp [banksOf_append, banksOf_nil, hdieBanks, hbulk]
      · rw [if_neg hfull]
        rw [eraseLoop_banks_other fct make polls junk h1 h2]
        exact List.chain'_nil
  · intro Command fuel st2 A2 B2 hmk hbig hc1 hc2
    exact readLoop_banks_per_chunk fct make Command junk hmk hbig hc1 hc2 fuel st2 A2 B2

/-- Counterexample for C3: a parallel-topology 512 Mb Spansion device read of
32 MB starting at address 0 produces two chunks that both translate into
bank 0, and the read loop emits a bank-select frame for bank 0 twice in a
row — not at most once as claimed. -/
theorem read_bankSelect_repeat_counterexample :
    banksOf (FlashRead (FCT 8) SPANSION_ID_BYTE0 ⟨XQSPIPS_CONNECTION_MODE_PARALLEL, 0⟩
        0 0x2000000 READ_CMD 0).1 = [0, 0] ∧
    ¬ List.Chain' (· ≠ ·) (banksOf (FlashRead (FCT 8) SPANSION_ID_BYTE0
        ⟨XQSPIPS_CONNECTION_MODE_PARALLEL, 0⟩ 0 0x2000000 READ_CMD 0).1) := by
  constructor
  · decide
  · intro h
    rw [show banksOf (FlashRead (FCT 8) SPANSION_ID_BYTE0
        ⟨XQSPIPS_CONNECTION_MODE_PARALLEL, 0⟩ 0 0x2000000 READ_CMD 0).1 = [0, 0] from by decide]
      at h
    exact (List.chain'_cons.mp h).1 rfl

/-- Witness for C3 (amended): a single 512 Mb Spansion device: an erase of
two sectors in the same bank emits one bank-select frame (a chain), and a
32 MB read emits one frame per chunk. -/
theorem bankSelect_emission_witness :
    List.Chain' (· ≠ ·) (banksOf (FlashErase (FCT 6) SPANSION_ID_BYTE0
        ⟨XQSPIPS_CONNECTION_MODE_SINGLE, 0⟩ 0 0x40000 0 0).1) ∧
    (banksOf (FlashReadLoop (FCT 6) SPANSION_ID_BYTE0 READ_CMD 0 0x2000000
        ⟨XQSPIPS_CONNECTION_MODE_SINGLE, 0⟩ 0 0x2000000).1).length =
      ((FlashReadLoop (FCT 6) SPANSION_ID_BYTE0 READ_CMD 0 0x2000000
        ⟨XQSPIPS_CONNECTION_MODE_SINGLE, 0⟩ 0 0x2000000).1.filter isDataTxn).length := by
  have h := bankSelect_emission (FCT 6) SPANSION_ID_BYTE0
    ⟨XQSPIPS_CONNECTION_MODE_SINGLE, 0⟩ 0 0x40000 0 0 (by decide) (by decide) (by decide)
  exact ⟨h.1, h.2 READ_CMD 0x2000000 ⟨XQSPIPS_CONNECTION_MODE_SINGLE, 0⟩ 0 0x2000000
    (Or.inr rfl) (by decide) (by decide) (by decide)⟩

/-! ### C5: chunking of FlashRead at 16 MB bank boundaries -/

theorem and_bankmask {A : Nat} (hA : A < 2 ^ 28) : A &&& BANKMASK = A - A % 2 ^ 24 := by
  have h : BANKMASK = 2 ^ 28 - 1 ^^^ (2 ^ 24 - 1) := by decide
  rw [h, and_bit_window (by norm_num) A]
  have h2 : A / 2 ^ 24 < 2 ^ (28 - 24) := by
    apply Nat.div_lt_of_lt_mul
    calc A < 2 ^ 28 := hA
      _ = 2 ^ 24 * 2 ^ (28 - 24) := by norm_num
  rw [Nat.mod_eq_of_lt h2]
  have h3 := Nat.div_add_mod A (2 ^ 24)
  omega

theorem readChunkList_B0 (fuel A : Nat) : readChunkList fuel A 0 = [] := by
  cases fuel with
  | zero => rfl
  | succ f => simp [readChunkList]

/-- The arithmetic of one FlashRead loop iteration on the driver's banked
address space: the chunk size is positive, bounded by the remaining count,
the 32-bit decrement does not wrap, the chunk stays inside its 16 MB bank,
and the next-bank address and remaining count stay in the valid domain. -/
theorem readChunk_step (A B : Nat) (hB : 0 < B) (hle : A + B ≤ 2 ^ 28)
    (hcorner : A + B = 2 ^ 28 → 2 ^ 24 ≤ A) :
    ∀ r, r = (if A &&& BANKMASK ≠ (A + B) % U32 &&& BANKMASK then
        ((A &&& BANKMASK) + SIXTEENMB + U32 - A % U32) % U32 else B) →
      0 < r ∧ r ≤ B ∧ (B + U32 - r % U32) % U32 = B - r ∧
      A + r ≤ A - A % SIXTEENMB + SIXTEENMB ∧
      (A &&& BANKMASK) + SIXTEENMB = A - A % SIXTEENMB + SIXTEENMB ∧
      (A - A % SIXTEENMB + SIXTEENMB) + (B - r) ≤ 2 ^ 28 ∧
      ¬(B = 0 ∨ 2 ^ 31 ≤ B) := by
  intro r hr
  subst hr
  have h24 : (2 : Nat) ^ 24 = 16777216 := by norm_num
  have hU : U32 = 4294967296 := by norm_num [U32]
  have hS : SIXTEENMB = 16777216 := by norm_num [SIXTEENMB]
  simp only [hU, hS]
  have hA : A < 2 ^ 28 := by omega
  have hmod : (A + B) % 4294967296 = A + B := Nat.mod_eq_of_lt (by omega)
  have hAmod32 : A % 4294967296 = A := Nat.mod_eq_of_lt (by omega)
  have hAm : A &&& BANKMASK = A - A % 16777216 := by
    have := and_bankmask hA
    rwa [h24] at this
  have hAq := Nat.div_add_mod A 16777216
  have hAr : A % 16777216 < 16777216 := Nat.mod_lt _ (by norm_num)
  simp only [hmod]
  by_cases hcr : A &&& BANKMASK = (A + B) &&& BANKMASK
  · have hite : (if A &&& BANKMASK ≠ (A + B) &&& BANKMASK then
        ((A &&& BANKMASK) + 16777216 + 4294967296 - A % 4294967296) % 4294967296 else B) = B :=
      if_neg (not_not_intro hcr)
    simp only [hite]
    have hne : A + B ≠ 2 ^ 28 := by
      intro heq
      rw [heq] at hcr
      have h0 : ((2 : Nat) ^ 28) &&& BANKMASK = 0 := by decide
      rw [h0] at hcr
      have := hcorner heq
      omega
    have hlt : A + B < 2 ^ 28 := by omega
    have hABm : (A + B) &&& BANKMASK = (A + B) - (A + B) % 16777216 := by
      have := and_bankmask hlt
      rwa [h24] at this
    have hABq := Nat.div_add_mod (A + B) 16777216
    have hABr : (A + B) % 16777216 < 16777216 := Nat.mod_lt _ (by norm_num)
    rw [hABm, hAm] at hcr
    refine ⟨by omega, by omega, by omega, by omega, by omega, by omega, by omega⟩
  · have hite : (if A &&& BANKMASK ≠ (A + B) &&& BANKMASK then
        ((A &&& BANKMASK) + 16777216 + 4294967296 - A % 4294967296) % 4294967296 else B) =
        ((A &&& BANKMASK) + 16777216 + 4294967296 - A % 4294967296) % 4294967296 :=
      if_pos hcr
    have hval : ((A &&& BANKMASK) + 16777216 + 4294967296 - A % 4294967296) % 4294967296 =
        16777216 - A % 16777216 := by
      rw [hAmod32, hAm]
      omega
    rw [hite, hval]
    have hrB : 16777216 - A % 16777216 ≤ B := by
      rcases eq_or_lt_of_le hle with heq | hlt
      · omega
      · have hABm : (A + B) &&& BANKMASK = (A + B) - (A + B) % 16777216 := by
          have := and_bankmask hlt
          rwa [h24] at this
        have hABq := Nat.div_add_mod (A + B) 16777216
        have hABr : (A + B) % 16777216 < 16777216 := Nat.mod_lt _ (by norm_num)
        rw [hABm, hAm] at hcr
        omega
    refine ⟨by omega, hrB, by omega, by omega, by omega, by omega, by omega⟩

/-- The chunk decomposition of a read: the payload sizes sum to the request,
every chunk is nonempty and confined to one 16 MB bank, each chunk's address
is the bank boundary following the previous chunk's address, and the first
chunk starts at the requested address. -/
theorem readChunkList_spec :
    ∀ (fuel A B : Nat), B ≤ fuel → 0 < B → A + B ≤ 2 ^ 28 →
      (A + B = 2 ^ 28 → 2 ^ 24 ≤ A) →
      ((readChunkList fuel A B).map Prod.snd).sum = B ∧
      (∀ c ∈ readChunkList fuel A B,
        0 < c.2 ∧ c.1 + c.2 ≤ c.1 - c.1 % SIXTEENMB + SIXTEENMB) ∧
      List.Chain' (fun c c' : Nat × Nat => c'.1 = c.1 - c.1 % SIXTEENMB + SIXTEENMB)
        (readChunkList fuel A B) ∧
      (readChunkList fuel A B).head?.map Prod.fst = some A := by
  intro fuel
  induction fuel with
  | zero => intro A B hf hB _ _; exact absurd hB (by omega)
  | succ f ih =>
    intro A B hf hB hle hcorner
    set rv := (if A &&& BANKMASK ≠ (A + B) % U32 &&& BANKMASK then
        ((A &&& BANKMASK) + SIXTEENMB + U32 - A % U32) % U32 else B) with hrv
    obtain ⟨hr0, hrB, hBnext, hwithin, hbank, hnext_le, hguard⟩ :=
      readChunk_step A B hB hle hcorner rv hrv
    have hS16 : SIXTEENMB = 16777216 := by norm_num [SIXTEENMB]
    have h24 : (2 : Nat) ^ 24 = 16777216 := by norm_num
    simp only [readChunkList]
    rw [if_neg hguard, ← hrv, hBnext, hbank]
    rcases Nat.eq_zero_or_pos (B - rv) with hz | hpos
    · rw [hz, readChunkList_B0]
      refine ⟨by simp; omega, ?_, by simp, by simp⟩
      intro c hc
      simp only [List.mem_singleton] at hc
      subst hc
      exact ⟨hr0, hwithin⟩
    · have hcorner2 : (A - A % SIXTEENMB + SIXTEENMB) + (B - rv) = 2 ^ 28 →
          2 ^ 24 ≤ A - A % SIXTEENMB + SIXTEENMB := by
        intro _
        omega
      obtain ⟨ihsum, ihmem, ihchain, ihhead⟩ := ih (A - A % SIXTEENMB + SIXTEENMB) (B - rv)
        (by omega) hpos hnext_le hcorner2
      refine ⟨?_, ?_, ?_, by simp⟩
      · simp only [List.map_cons, List.sum_cons, ihsum]
        omega
      · intro c hc
        rcases List.mem_cons.mp hc with hc | hc
        · subst hc
          exact ⟨hr0, hwithin⟩
        · exact ihmem c hc
      · refine List.chain'_cons'.mpr ⟨?_, ihchain⟩
        intro y hy
        have hhd : (readChunkList f (A - A % SIXTEENMB + SIXTEENMB) (B - rv)).head? = some y := hy
        rw [hhd] at ihhead
        simpa using ihhead

/-- The chunking loop stabilizes within ByteCount iterations: any fuel of at
least ByteCount produces the same chunk list, i.e. the loop terminates. -/
theorem readChunkList_fuel_stable :
    ∀ (B : Nat), ∀ (fuel A : Nat), B ≤ fuel → A + B ≤ 2 ^ 28 →
      (A + B = 2 ^ 28 → 2 ^ 24 ≤ A) →
      readChunkList fuel A B = readChunkList B A B := by
  intro B
  induction B using Nat.strong_induction_on with
  | _ B ihs =>
    intro fuel A hf hle hcorner
    rcases Nat.eq_zero_or_pos B with hB0 | hB
    · subst hB0
      rw [readChunkList_B0, readChunkList_B0]
    · obtain ⟨f, rfl⟩ : ∃ f, fuel = f + 1 := ⟨fuel - 1, by omega⟩
      obtain ⟨b, hBeq⟩ : ∃ b, B = b + 1 := ⟨B - 1, by omega⟩
      set rv := (if A &&& BANKMASK ≠ (A + B) % U32 &&& BANKMASK then
          ((A &&& BANKMASK) + SIXTEENMB + U32 - A % U32) % U32 else B) with hrv
      obtain ⟨hr0, hrB, hBnext, hwithin, hbank, hnext_le, hguard⟩ :=
        readChunk_step A B hB hle hcorner rv hrv
      have hS16 : SIXTEENMB = 16777216 := by norm_num [SIXTEENMB]
      have h24 : (2 : Nat) ^ 24 = 16777216 := by norm_num
      have hcorner2 : (A - A % SIXTEENMB + SIXTEENMB) + (B - rv) = 2 ^ 28 →
          2 ^ 24 ≤ A - A % SIXTEENMB + SIXTEENMB := by
        intro _
        omega
      have hstep : ∀ g, readChunkList (g + 1) A B =
          (A, rv) :: readChunkList g (A - A % SIXTEENMB + SIXTEENMB) (B - rv) := by
        intro g
        simp only [readChunkList]
        rw [if_neg hguard, ← hrv, hBnext, hbank]
      rw [hstep f]
      rw [show readChunkList B A B = readChunkList (b + 1) A B from by rw [← hBeq]]
      rw [hstep b]
      have hlt : B - rv < B := by omega
      rw [ihs _ hlt f _ (by omega) hnext_le hcorner2,
        ihs _ hlt b _ (by omega) hnext_le hcorner2]

/-- The data transactions of the FlashRead loop correspond one-to-one to the
chunk list: each transfer size is the chunk payload plus the protocol
overhead, plus one dummy byte for fast/dual/quad commands (all in the 32-bit
arithmetic of the code). -/
theorem flashReadLoop_sizes (fct : FlashInfo) (FlashMake Command junk : Nat) :
    ∀ (fuel : Nat) (st : QspiState) (A B : Nat),
      ((FlashReadLoop fct FlashMake Command junk fuel st A B).1.filter isDataTxn).map Txn.size =
        (readChunkList fuel A B).map (fun c =>
          (c.2 + (if isDummyByteCmd Command = true then DUMMY_SIZE else 0) + OVERHEAD_SIZE)
            % U32) := by
  intro fuel
  induction fuel with
  | zero => intro st A B; rfl
  | succ f ih =>
    intro st A B
    by_cases hguard : B = 0 ∨ 2 ^ 31 ≤ B
    · simp only [FlashReadLoop, readChunkList]
      rw [if_pos hguard, if_pos hguard]
      rfl
    · have hU : U32 = 4294967296 := by norm_num [U32]
      obtain ⟨hB0, hB31⟩ := not_or.mp hguard
      simp only [FlashReadLoop, readChunkList]
      rw [if_neg hguard, if_neg hguard]
      set rv := (if A &&& BANKMASK ≠ (A + B) % U32 &&& BANKMASK then
          ((A &&& BANKMASK) + SIXTEENMB + U32 - A % U32) % U32 else B) with hrv
      have hrvlt : rv < U32 := by
        rw [hrv]
        split_ifs
        · exact Nat.mod_lt _ (by norm_num [U32])
        · rw [hU]
          omega
      have hbank_filter : (if SIXTEENMB < fct.FlashDeviceSize then
          SendBankSelect FlashMake ((GetRealAddr fct st A junk).1 / SIXTEENMB)
          else []).filter isDataTxn = [] := by
        split_ifs
        · exact filter_isData_sendBank _ _
        · rfl
      have hsz : ((if isDummyByteCmd Command = true then (rv + DUMMY_SIZE) % U32 else rv)
            + OVERHEAD_SIZE) % U32 =
          (rv + (if isDummyByteCmd Command = true then DUMMY_SIZE else 0) + OVERHEAD_SIZE)
            % U32 := by
        split_ifs with hd
        · simp only [DUMMY_SIZE, OVERHEAD_SIZE, hU]
          omega
        · rfl
      have hnext : (if isDummyByteCmd Command = true then
            (B + U32 - ((if isDummyByteCmd Command = true then (rv + DUMMY_SIZE) % U32 else rv)
              + U32 - DUMMY_SIZE) % U32) % U32
          else (B + U32 -
            (if isDummyByteCmd Command = true then (rv + DUMMY_SIZE) % U32 else rv)) % U32) =
          (B + U32 - rv % U32) % U32 := by
        split_ifs with hd
        · simp only [hd, if_true, DUMMY_SIZE, hU]
          simp only [hU] at hrvlt
          omega
        · rw [Nat.mod_eq_of_lt hrvlt]
      rw [List.filter_append, List.filter_append, hbank_filter, List.nil_append,
        List.filter_cons_of_pos (by rfl), List.filter_nil, List.singleton_append]
      simp only [List.map_cons]
      rw [hsz, hnext, ih]

/-- C5 (amended): within the driver's banked address space (address +
byteCount at most 2^28, and at least one full bank below the top when the
span ends exactly at 2^28), FlashRead chunks a positive request so that the
payloads sum to exactly byteCount, every chunk is nonempty and confined to
one 16 MB bank, the logical address advances to the next bank boundary each
iteration starting from the requested address, each data transaction's size
is its chunk payload plus protocol overhead plus one dummy byte for
fast/dual/quad commands, and the loop terminates (the chunk list is stable
for any fuel of at least byteCount). -/
theorem flashRead_chunking (fct : FlashInfo) (FlashMake : Nat) (st : QspiState)
    (Address ByteCount Command junk : Nat)
    (hB : 0 < ByteCount) (hle : Address + ByteCount ≤ 2 ^ 28)
    (hcorner : Address + ByteCount = 2 ^ 28 → 2 ^ 24 ≤ Address) :
    ((readChunkList ByteCount Address ByteCount).map Prod.snd).sum = ByteCount ∧
    (∀ c ∈ readChunkList ByteCount Address ByteCount,
      0 < c.2 ∧ c.1 + c.2 ≤ c.1 - c.1 % SIXTEENMB + SIXTEENMB) ∧
    List.Chain' (fun c c' : Nat × Nat => c'.1 = c.1 - c.1 % SIXTEENMB + SIXTEENMB)
      (readChunkList ByteCount Address ByteCount) ∧
    (readChunkList ByteCount Address ByteCount).head?.map Prod.fst = some Address ∧
    ((FlashRead fct FlashMake st Address ByteCount Command junk).1.filter isDataTxn).map
        Txn.size =
      (readChunkList ByteCount Address ByteCount).map (fun c =>
        (c.2 + (if isDummyByteCmd Command = true then DUMMY_SIZE else 0) + OVERHEAD_SIZE)
          % U32) ∧
    (∀ fuel, ByteCount ≤ fuel →
      readChunkList fuel Address ByteCount = readChunkList ByteCount Address ByteCount) := by
  obtain ⟨hsum, hmem, hchain, hhead⟩ :=
    readChunkList_spec ByteCount Address ByteCount (le_refl _) hB hle hcorner
  refine ⟨hsum, hmem, hchain, hhead, ?_, ?_⟩
  · exact flashReadLoop_sizes fct FlashMake Command junk ByteCount st Address ByteCount
  · intro fuel hfuel
    exact readChunkList_fuel_stable ByteCount fuel Address hfuel hle hcorner

/-- Counterexample for C5: a full-device read of the stacked 1 Gb Micron
configuration (total logical capacity 2^28 bytes) from address 0 is not
chunked at all: the loop issues a single transaction of 2^28 + 4 bytes whose
payload spans all sixteen 16 MB banks, because the 4-bit bank mask makes
bank 16 indistinguishable from bank 0. -/
theorem flashRead_chunking_counterexample :
    readChunkList 0x10000000 0 0x10000000 = [(0, 0x10000000)] ∧
    ¬((0 : Nat) + 0x10000000 ≤ 0 - 0 % SIXTEENMB + SIXTEENMB) ∧
    ((FlashRead (FCT 19) MICRON_ID_BYTE0 ⟨XQSPIPS_CONNECTION_MODE_STACKED, 0⟩
        0 0x10000000 READ_CMD 0).1.filter isDataTxn).map Txn.size = [0x10000004] ∧
    (FCT 19).NumSect * (FCT 19).SectSize = 0x10000000 := by
  refine ⟨by decide, by decide, by decide, by decide⟩

/-- Witness for C5 (amended): a 2-byte read straddling the first bank
boundary splits into two 1-byte chunks whose payloads sum to 2. -/
theorem flashRead_chunking_witness :
    ((readChunkList 2 0xFFFFFF 2).map Prod.snd).sum = 2 ∧
    (readChunkList 2 0xFFFFFF 2).head?.map Prod.fst = some 0xFFFFFF ∧
    ((FlashRead (FCT 0) SPANSION_ID_BYTE0 ⟨XQSPIPS_CONNECTION_MODE_SINGLE, 0⟩
        0xFFFFFF 2 READ_CMD 0).1.filter isDataTxn).map Txn.size =
      (readChunkList 2 0xFFFFFF 2).map (fun c =>
        (c.2 + (if isDummyByteCmd READ_CMD = true then DUMMY_SIZE else 0) + OVERHEAD_SIZE)
          % U32) := by
  have h := flashRead_chunking (FCT 0) SPANSION_ID_BYTE0
    ⟨XQSPIPS_CONNECTION_MODE_SINGLE, 0⟩ 0xFFFFFF 2 READ_CMD 0 (by decide)
    (by norm_num) (by norm_num)
  exact ⟨h.1, h.2.2.2.1, h.2.2.2.2.1⟩

end FlashDriver
